import Mathlib

/-!
# containerd: container store client and protocol codec

A shallow embedding of

* `core/containers/helpers.go`: `ContainerToProto`, `ContainerFromProto` and
  their slice variants;
* `client/containerstore.go`: `remoteContainers` with `List`, `list`, `stream`
  and the four single-call operations.

Go values are modelled as follows.

* A slice is a `List`; the nil slice is `[]`.
* A map is `GoMap`: either the nil map or an allocated association list with
  distinct keys.
* A nilable pointer is an `Option`.  A value of the interface `typeurl.Any` is
  an `Option` too: `none` is the nil interface, and a non-nil value may hold a
  nil pointer.
* The remote service and the cancellation token are an explicit environment;
  every remote call an operation makes is recorded in a trace.
-/

/-- A Go slice; the nil slice and the empty slice are both `[]`. -/
abbrev Slice (α : Type) := List α

/-- The body of a typed payload, `[]byte`. -/
abbrev Bytes := Slice (Fin 256)

/-! ## Go maps -/

/-- A Go `map[string]V`: the nil map, or an allocated map with distinct keys. -/
inductive GoMap (V : Type) where
  | nil : GoMap V
  | made (m : AList (fun _ : String => V)) : GoMap V

namespace GoMap

variable {V : Type}

/-- The entries a `for k, v := range m` loop visits; none for the nil map. -/
def range : GoMap V → List (Sigma (fun _ : String => V))
  | nil => []
  | made m => m.entries

/-- The lookup `v, ok := m[k]`; `none` when the key is missing. -/
def get : GoMap V → String → Option V
  | nil, _ => none
  | made m, k => m.lookup k

/-- The keys of the map. -/
def keys (m : GoMap V) : List String := (range m).keys

/-- Equality of maps as maps: the same entries in any order.  The nil map and
the empty map are the same in this sense. -/
def same (m n : GoMap V) : Prop := (range m).Perm (range n)

instance [DecidableEq V] (m n : GoMap V) : Decidable (same m n) := by
  unfold same
  infer_instance

end GoMap

/-! ## Typed payloads and timestamps -/

namespace types

/-- The wire payload `types.Any` (`anypb.Any`): a type identifier and a body.  A
`*types.Any` is an `Option types.Any`, the nil pointer being `none`. -/
structure Any where
  TypeUrl : String
  Value : Bytes
deriving DecidableEq, Repr

/-- The wire field mask `types.FieldMask`. -/
structure FieldMask where
  Paths : Slice String
deriving DecidableEq, Repr

end types

namespace typeurl

/-- Modelled from the spec: `typeurl.Any` is not part of the sources.  A non-nil
value of this interface is a self-describing typed payload, observed through
`GetTypeUrl()` and `GetValue()`.  It is either a `*types.Any` stored in the
interface (the wire payload type is one implementation; the pointer stored may
be the nil pointer), or a value of any other type, given by its type
identifier and body.  The nil interface is `none : Option typeurl.Any`. -/
inductive Any where
  | pointer (p : Option types.Any) : Any
  | other (TypeUrl : String) (Value : Bytes) : Any
deriving DecidableEq, Repr

/-- The method `GetTypeUrl()`; on a nil `*types.Any` it returns the empty
string. -/
def Any.GetTypeUrl : Any → String
  | Any.pointer none => ""
  | Any.pointer (some a) => a.TypeUrl
  | Any.other t _ => t

/-- The method `GetValue()`; on a nil `*types.Any` it returns no bytes. -/
def Any.GetValue : Any → Bytes
  | Any.pointer none => []
  | Any.pointer (some a) => a.Value
  | Any.other _ v => v

/-- The payload a value carries: none for the nil interface and for an
interface that holds a nil pointer, otherwise its type identifier and body. -/
def payload : Option Any → Option (String × Bytes)
  | none => none
  | some (Any.pointer none) => none
  | some (Any.pointer (some a)) => some (a.TypeUrl, a.Value)
  | some (Any.other t v) => some (t, v)

/-- Comparison of two payload fields by (type identifier, body): both are nil,
or both are non-nil with the same `GetTypeUrl()` and the same `GetValue()`. -/
def sameAny : Option Any → Option Any → Prop
  | none, none => True
  | some a, some b => a.GetTypeUrl = b.GetTypeUrl ∧ a.GetValue = b.GetValue
  | _, _ => False

/-- Comparison of two payload fields by the payload they carry; a nil interface
and an interface that holds a nil pointer both carry none. -/
def samePayload (x y : Option Any) : Prop := payload x = payload y

/-- Modelled from the spec: `typeurl.MarshalProto` is not part of the sources.
It wraps a payload as a wire payload with the same type identifier and body; a
nil payload gives an absent wire payload, not an error; a value that is a wire
payload already is passed through unchanged. -/
def MarshalProto : Option Any → Option types.Any
  | none => none
  | some (Any.pointer p) => p
  | some (Any.other t v) => some { TypeUrl := t, Value := v }

/-- The conversion Go inserts when a `*types.Any` is stored in a field of type
`typeurl.Any` (`helpers.go` lines 76, 82 and 89): the result is a non-nil
interface value that holds the pointer, also when the pointer is nil. -/
def ofProto (p : Option types.Any) : Option Any := some (Any.pointer p)

end typeurl

namespace time

/-- Modelled from the spec: the domain timestamp (`time.Time`) is an instant,
counted in nanoseconds since the Unix epoch. -/
structure Time where
  unixNano : Int
deriving DecidableEq, Repr

end time

namespace timestamppb

/-- The wire timestamp: whole seconds and nanoseconds. -/
structure Timestamp where
  Seconds : Int
  Nanos : Int
deriving DecidableEq, Repr

end timestamppb

namespace protobuf

/-- Modelled from the spec: `protobuf.ToTimestamp` is not part of the sources.
It splits the instant into whole seconds (rounded down) and the remaining
nanoseconds, which is the precision of the wire format. -/
def ToTimestamp (t : time.Time) : Option timestamppb.Timestamp :=
  some { Seconds := t.unixNano / 1000000000, Nanos := t.unixNano % 1000000000 }

/-- Modelled from the spec: `protobuf.FromTimestamp` is not part of the sources.
It gives the instant the wire timestamp denotes; an absent timestamp reads as
zero seconds and zero nanoseconds. -/
def FromTimestamp : Option timestamppb.Timestamp → time.Time
  | none => { unixNano := 0 }
  | some ts => { unixNano := ts.Seconds * 1000000000 + ts.Nanos }

end protobuf

/-! ## The domain entity and its wire form -/

/-- The type `containers.RuntimeInfo`, with the fields `helpers.go` uses. -/
structure RuntimeInfo where
  Name : String
  Options : Option typeurl.Any
deriving DecidableEq

/-- The zero value `RuntimeInfo{}`. -/
def RuntimeInfo.zero : RuntimeInfo := { Name := "", Options := none }

/-- The type `containers.Container`, with the fields `helpers.go` uses. -/
structure Container where
  ID : String
  Labels : GoMap String
  Image : String
  Runtime : RuntimeInfo
  Spec : Option typeurl.Any
  SnapshotKey : String
  Snapshotter : String
  CreatedAt : time.Time
  UpdatedAt : time.Time
  Extensions : GoMap (Option typeurl.Any)
  SandboxID : String

/-- The zero value `containers.Container{}`; the zero `time.Time` is the first
instant of year 1. -/
def Container.zero : Container :=
  { ID := "", Labels := GoMap.nil, Image := "", Runtime := RuntimeInfo.zero, Spec := none,
    SnapshotKey := "", Snapshotter := "",
    CreatedAt := { unixNano := -62135596800 * 1000000000 },
    UpdatedAt := { unixNano := -62135596800 * 1000000000 },
    Extensions := GoMap.nil, SandboxID := "" }

namespace api

/-- The wire message `api.Container_Runtime`. -/
structure Container_Runtime where
  Name : String
  Options : Option types.Any
deriving DecidableEq

/-- The wire message `api.Container`, with the fields `helpers.go` uses. -/
structure Container where
  ID : String
  Labels : GoMap String
  Image : String
  Runtime : Option Container_Runtime
  Spec : Option types.Any
  Snapshotter : String
  SnapshotKey : String
  CreatedAt : Option timestamppb.Timestamp
  UpdatedAt : Option timestamppb.Timestamp
  Extensions : GoMap (Option types.Any)
  Sandbox : String

end api

/-- Two maps hold the same keys and, under each key, values related by `R`.
The nil map and the empty map are the same in this sense. -/
def GoMap.sameBy {V : Type} (R : V → V → Prop) (m n : GoMap V) : Prop :=
  ∀ k : String,
    match GoMap.get m k, GoMap.get n k with
    | none, none => True
    | some a, some b => R a b
    | _, _ => False

/-- Field-for-field equality of two containers, with the payload fields
(`Runtime.Options`, `Spec` and the values of `Extensions`) compared by `R`:
maps are compared as maps (so nil and empty agree), everything else by plain
equality. -/
def Container.fieldEqBy (R : Option typeurl.Any → Option typeurl.Any → Prop)
    (c d : Container) : Prop :=
  c.ID = d.ID ∧ GoMap.same c.Labels d.Labels ∧ c.Image = d.Image ∧
  c.Runtime.Name = d.Runtime.Name ∧ R c.Runtime.Options d.Runtime.Options ∧
  R c.Spec d.Spec ∧ c.SnapshotKey = d.SnapshotKey ∧ c.Snapshotter = d.Snapshotter ∧
  c.CreatedAt = d.CreatedAt ∧ c.UpdatedAt = d.UpdatedAt ∧
  GoMap.sameBy R c.Extensions d.Extensions ∧ c.SandboxID = d.SandboxID

/-- Field-for-field equality of two containers: maps are compared as maps (so
nil and empty agree), payloads by (type identifier, body), everything else by
plain equality. -/
def Container.fieldEq (c d : Container) : Prop :=
  Container.fieldEqBy typeurl.sameAny c d

/-! ## `core/containers/helpers.go` -/

/-- The function `ContainerToProto`. -/
def ContainerToProto (container : Container) : api.Container :=
  let extensions : AList (fun _ : String => Option types.Any) :=
    (GoMap.range container.Extensions).foldl
      (fun m kv => m.insert kv.1 (typeurl.MarshalProto kv.2)) ∅
  { ID := container.ID,
    Labels := container.Labels,
    Image := container.Image,
    Runtime := some
      { Name := container.Runtime.Name,
        Options := typeurl.MarshalProto container.Runtime.Options },
    Spec := typeurl.MarshalProto container.Spec,
    Snapshotter := container.Snapshotter,
    SnapshotKey := container.SnapshotKey,
    CreatedAt := protobuf.ToTimestamp container.CreatedAt,
    UpdatedAt := protobuf.ToTimestamp container.UpdatedAt,
    Extensions := GoMap.made extensions,
    Sandbox := container.SandboxID }

/-- The function `ContainerFromProto`. -/
def ContainerFromProto (containerpb : api.Container) : Container :=
  let runtime : RuntimeInfo :=
    match containerpb.Runtime with
    | some rt => { Name := rt.Name, Options := typeurl.ofProto rt.Options }
    | none => RuntimeInfo.zero
  let extensions : AList (fun _ : String => Option typeurl.Any) :=
    (GoMap.range containerpb.Extensions).foldl
      (fun m kv => m.insert kv.1 (typeurl.ofProto kv.2)) ∅
  { ID := containerpb.ID,
    Labels := containerpb.Labels,
    Image := containerpb.Image,
    Runtime := runtime,
    Spec := typeurl.ofProto containerpb.Spec,
    Snapshotter := containerpb.Snapshotter,
    SnapshotKey := containerpb.SnapshotKey,
    Extensions := GoMap.made extensions,
    SandboxID := containerpb.Sandbox,
    CreatedAt := protobuf.FromTimestamp containerpb.CreatedAt,
    UpdatedAt := protobuf.FromTimestamp containerpb.UpdatedAt }

/-- The function `ContainersToProto`: appends the encoding of each element. -/
def ContainersToProto (containers : Slice Container) : Slice api.Container :=
  containers.foldl (fun containerspb image => containerspb ++ [ContainerToProto image]) []

/-- The function `ContainersFromProto`: appends the decoding of each element. -/
def ContainersFromProto (containerspb : Slice api.Container) : Slice Container :=
  containerspb.foldl (fun containers container => containers ++ [ContainerFromProto container]) []

/-! ## Errors -/

namespace codes

/-- The gRPC status codes (`codes.Code`). -/
inductive Code where
  | OK | Canceled | Unknown | InvalidArgument | DeadlineExceeded | NotFound
  | AlreadyExists | PermissionDenied | ResourceExhausted | FailedPrecondition
  | Aborted | OutOfRange | Unimplemented | Internal | Unavailable | DataLoss
  | Unauthenticated
deriving DecidableEq, Repr

end codes

/-- A non-nil `error` returned by a call on the generated client: the
end-of-stream marker `io.EOF`, an error that carries a gRPC status, or any
other error. -/
inductive RpcError where
  | EOF : RpcError
  | status (code : codes.Code) (msg : String) : RpcError
  | other (msg : String) : RpcError
deriving DecidableEq, Repr

namespace status

/-- The function `status.FromError` on a non-nil error: the code of the status
the error carries and `true`, or `codes.Unknown` and `false` when it carries
none. -/
def FromError : RpcError → codes.Code × Bool
  | RpcError.status c _ => (c, true)
  | RpcError.EOF => (codes.Code.Unknown, false)
  | RpcError.other _ => (codes.Code.Unknown, false)

end status

namespace errdefs

/-- Modelled from the spec: the error kinds of the domain taxonomy (§7). -/
inductive Kind where
  | NotFound | AlreadyExists | InvalidArgument | Canceled | Unavailable | NotImplemented
deriving DecidableEq, Repr

end errdefs

/-- The errors of `context.Context.Err()`. -/
inductive ContextError where
  | Canceled | DeadlineExceeded
deriving DecidableEq, Repr

/-- A non-nil `error` returned by an operation of the store: the package's
private sentinel `errStreamNotAvailable`, a transport error mapped by
`errdefs.FromGRPC` (its kind, and the error it was made from), or the error of
the cancellation token. -/
inductive Error where
  | streamNotAvailable : Error
  | mapped (kind : errdefs.Kind) (cause : RpcError) : Error
  | context (e : ContextError) : Error
deriving DecidableEq, Repr

/-- The variable `errStreamNotAvailable`. -/
def errStreamNotAvailable : Error := Error.streamNotAvailable

namespace errdefs

/-- Modelled from the spec: the kind a status code is mapped to.  Every
transport-level error is mapped to exactly one kind of the taxonomy: a code
that has a kind of its own goes to that kind (a server's "not implemented"
report to `NotImplemented`), every other code is a generic transport failure,
`Unavailable`. -/
def kindOf : codes.Code → Kind
  | codes.Code.NotFound => Kind.NotFound
  | codes.Code.AlreadyExists => Kind.AlreadyExists
  | codes.Code.InvalidArgument => Kind.InvalidArgument
  | codes.Code.Canceled => Kind.Canceled
  | codes.Code.Unimplemented => Kind.NotImplemented
  | _ => Kind.Unavailable

/-- Modelled from the spec: `errdefs.FromGRPC` is not part of the sources.  It
maps a transport error to the domain error of the kind of its status code, and
nil to nil. -/
def FromGRPC : Option RpcError → Option Error
  | none => none
  | some err => some (Error.mapped (kindOf (status.FromError err).1) err)

/-- The test `errdefs.IsNotImplemented`: the error is of kind `NotImplemented`. -/
def IsNotImplemented : Error → Bool
  | Error.mapped Kind.NotImplemented _ => true
  | _ => false

/-- The test `errdefs.IsUnavailable`: the error is of kind `Unavailable`. -/
def IsUnavailable : Error → Bool
  | Error.mapped Kind.Unavailable _ => true
  | _ => false

end errdefs

/-! ## The remote service and the cancellation token -/

/-- The stream `containersapi.Containers_ListStreamClient` as the client sees
it: `Recv` yields the records one at a time, in this order, and after the last
one fails with `last` (`io.EOF` for a stream that ends normally).  A session
delivers finitely many records, and each message carries a container. -/
structure ListStreamClient where
  records : Slice api.Container
  last : RpcError

/-- The interface `containersapi.ContainersClient`: what each remote call
answers to a request.  The token handed to a call is not a separate argument:
what the call answers, a cancellation error included, is part of the
environment. -/
structure ContainersClient where
  Get : String → Except RpcError api.Container
  List : Slice String → Except RpcError (Slice api.Container)
  ListStream : Slice String → Except RpcError ListStreamClient
  Create : api.Container → Except RpcError api.Container
  Update : api.Container → Option types.FieldMask → Except RpcError api.Container
  Delete : String → Option RpcError

/-- The cancellation token `context.Context`, as `stream` uses it: `Err n` is
what the poll `select { case <-ctx.Done(): ... }` number `n` (counted from 0)
observes, `none` while the token is not cancelled. -/
structure Context where
  Err : Nat → Option ContextError

/-- A remote call, as recorded in the trace of an operation. -/
inductive Call where
  | Get (id : String) : Call
  | List (filters : Slice String) : Call
  | ListStream (filters : Slice String) : Call
  | Recv : Call
  | Create (container : api.Container) : Call
  | Update (container : api.Container) (updateMask : Option types.FieldMask) : Call
  | Delete (id : String) : Call

/-- What a listing operation returns, `([]containers.Container, error)`, and
the remote calls it made, in order. -/
structure ListResult where
  containers : Slice Container
  err : Option Error
  calls : Slice Call

/-- What `Get`, `Create` and `Update` return, `(containers.Container, error)`,
and the remote calls made. -/
structure ContainerResult where
  container : Container
  err : Option Error
  calls : Slice Call

/-! ## `client/containerstore.go` -/

/-- The type `remoteContainers`. -/
structure remoteContainers where
  client : ContainersClient

/-- The method `remoteContainers.Get`. -/
def remoteContainers.Get (r : remoteContainers) (id : String) : ContainerResult :=
  match r.client.Get id with
  | Except.error err =>
    { container := Container.zero, err := errdefs.FromGRPC (some err), calls := [Call.Get id] }
  | Except.ok resp =>
    { container := ContainerFromProto resp, err := none, calls := [Call.Get id] }

/-- The method `remoteContainers.list`: the unary call.  Its `ctx` argument is
only handed on to the remote call, so it is left to the environment. -/
def remoteContainers.list (r : remoteContainers) (filters : Slice String) : ListResult :=
  match r.client.List filters with
  | Except.error err =>
    { containers := [], err := errdefs.FromGRPC (some err), calls := [Call.List filters] }
  | Except.ok resp =>
    { containers := ContainersFromProto resp, err := none, calls := [Call.List filters] }

/-- The `for` loop of `remoteContainers.stream`, on the records the session
still has to deliver.  `n` is the number of polls of the token made so far and
`cs` the containers accumulated so far. -/
def remoteContainers.recvLoop (ctx : Context) (last : RpcError) :
    Slice api.Container → Nat → Slice Container → ListResult
  | [], _, cs =>
    -- `session.Recv()` fails with `last`
    if last = RpcError.EOF then
      { containers := cs, err := none, calls := [Call.Recv] }
    else if (status.FromError last).2 = true ∧
        (status.FromError last).1 = codes.Code.Unimplemented then
      { containers := [], err := some errStreamNotAvailable, calls := [Call.Recv] }
    else
      { containers := [], err := errdefs.FromGRPC (some last), calls := [Call.Recv] }
  | c :: rest, n, cs =>
    -- `session.Recv()` yields `c`
    match ctx.Err n with
    | some e => { containers := cs, err := some (Error.context e), calls := [Call.Recv] }
    | none =>
      let res := remoteContainers.recvLoop ctx last rest (n + 1) (cs ++ [ContainerFromProto c])
      { res with calls := Call.Recv :: res.calls }

/-- The method `remoteContainers.stream`. -/
def remoteContainers.stream (r : remoteContainers) (ctx : Context) (filters : Slice String) :
    ListResult :=
  match r.client.ListStream filters with
  | Except.error err =>
    { containers := [], err := errdefs.FromGRPC (some err), calls := [Call.ListStream filters] }
  | Except.ok session =>
    let res := remoteContainers.recvLoop ctx session.last session.records 0 []
    { res with calls := Call.ListStream filters :: res.calls }

/-- The method `remoteContainers.List`. -/
def remoteContainers.List (r : remoteContainers) (ctx : Context) (filters : Slice String) :
    ListResult :=
  let s := r.stream ctx filters
  match s.err with
  | some err =>
    if err = errStreamNotAvailable then
      let u := r.list filters
      { u with calls := s.calls ++ u.calls }
    else
      { containers := [], err := some err, calls := s.calls }
  | none => { containers := s.containers, err := none, calls := s.calls }

/-- The method `remoteContainers.Create`. -/
def remoteContainers.Create (r : remoteContainers) (container : Container) : ContainerResult :=
  let req := ContainerToProto container
  match r.client.Create req with
  | Except.error err =>
    { container := Container.zero, err := errdefs.FromGRPC (some err), calls := [Call.Create req] }
  | Except.ok created =>
    { container := ContainerFromProto created, err := none, calls := [Call.Create req] }

/-- The method `remoteContainers.Update`. -/
def remoteContainers.Update (r : remoteContainers) (container : Container)
    (fieldpaths : Slice String) : ContainerResult :=
  let updateMask : Option types.FieldMask :=
    if fieldpaths.length > 0 then some { Paths := fieldpaths } else none
  let req := ContainerToProto container
  match r.client.Update req updateMask with
  | Except.error err =>
    { container := Container.zero, err := errdefs.FromGRPC (some err),
      calls := [Call.Update req updateMask] }
  | Except.ok updated =>
    { container := ContainerFromProto updated, err := none,
      calls := [Call.Update req updateMask] }

/-- The method `remoteContainers.Delete`: the returned error and the calls made. -/
def remoteContainers.Delete (r : remoteContainers) (id : String) : Option Error × Slice Call :=
  (errdefs.FromGRPC (r.client.Delete id), [Call.Delete id])

/-! ## Reading a trace -/

/-- The filters a listing request carries; `none` for a call that is not a
listing request. -/
def Call.filters : Call → Option (Slice String)
  | Call.List filters => some filters
  | Call.ListStream filters => some filters
  | _ => none

/-- Whether the call is a `ListStream` call. -/
def Call.isListStream : Call → Bool
  | Call.ListStream _ => true
  | _ => false

/-- Whether the call is a unary `List` call. -/
def Call.isList : Call → Bool
  | Call.List _ => true
  | _ => false

/-! ## Example values -/

/-- A wire container with the given identifier and nothing else of note. -/
def exampleWire (id : String) : api.Container :=
  { ID := id, Labels := GoMap.nil, Image := "img:latest",
    Runtime := some { Name := "runc", Options := none }, Spec := none,
    Snapshotter := "", SnapshotKey := "", CreatedAt := none, UpdatedAt := none,
    Extensions := GoMap.nil, Sandbox := "" }

/-- A container whose `Runtime.Options`, `Spec` and one extension carry a payload. -/
def exampleContainer : Container :=
  { ID := "c1", Labels := GoMap.nil, Image := "img:latest",
    Runtime := { Name := "runc", Options := some (typeurl.Any.other "opts" [1]) },
    Spec := some (typeurl.Any.other "spec" [2, 3]),
    SnapshotKey := "", Snapshotter := "",
    CreatedAt := { unixNano := 1500000000 }, UpdatedAt := { unixNano := 1500000000 },
    Extensions := GoMap.made (AList.singleton "ext" (some (typeurl.Any.other "e" [4]))),
    SandboxID := "" }

/-- A container with an identifier and an image and no payload at all: its
`Runtime.Options` and `Spec` are nil. -/
def exampleBareContainer : Container :=
  { Container.zero with ID := "c1", Image := "img:latest" }

/-- A store whose `ListStream` call answers `stream` and whose unary `List`
call answers `unary`, whatever the filters. -/
def exampleStore (stream : Except RpcError ListStreamClient)
    (unary : Except RpcError (Slice api.Container)) : remoteContainers :=
  { client :=
    { Get := fun _ => Except.error (RpcError.status codes.Code.NotFound "not found"),
      List := fun _ => unary,
      ListStream := fun _ => stream,
      Create := fun c => Except.ok c,
      Update := fun c _ => Except.ok c,
      Delete := fun _ => none } }

/-- A token that is never cancelled. -/
def neverCancelled : Context := { Err := fun _ => none }

/-- A token that is cancelled from poll number `k` on. -/
def cancelledFrom (k : Nat) : Context :=
  { Err := fun n => if n < k then none else some ContextError.Canceled }

/-- The status error a server answers for a call it does not implement. -/
def unimplemented : RpcError := RpcError.status codes.Code.Unimplemented "unknown method"

/-! ## Lemmas on maps -/

section maps

variable {V W : Type}

/-- Rebuilding a map entry by entry, as the `range` loops do: the new map holds,
under each key of the old one, the converted value, and keeps what it held
under every other key. -/
theorem lookup_foldl_insert (f : V → W) (k : String) :
    ∀ (l : List (Sigma (fun _ : String => V))) (acc : AList (fun _ : String => W)),
      l.NodupKeys →
      AList.lookup k (l.foldl (fun m kv => m.insert kv.1 (f kv.2)) acc) =
        match l.dlookup k with
        | some v => some (f v)
        | none => AList.lookup k acc
  | [], acc, _ => by simp
  | ⟨a, b⟩ :: t, acc, h => by
    obtain ⟨ha, ht⟩ := List.nodupKeys_cons.mp h
    rw [List.foldl_cons, lookup_foldl_insert f k t _ ht]
    by_cases hk : k = a
    · subst hk
      have hnone : List.dlookup k t = none := List.dlookup_eq_none.mpr ha
      simp [hnone, AList.lookup_insert]
    · have hne : List.dlookup k (⟨a, b⟩ :: t) = List.dlookup k t :=
        List.dlookup_cons_ne t ⟨a, b⟩ hk
      rw [hne, AList.lookup_insert_ne hk]

/-- A map rebuilt by a `range` loop from a map `m`, looked up at a key. -/
theorem lookup_rebuild (f : V → W) (m : GoMap V) (k : String) :
    AList.lookup k ((GoMap.range m).foldl (fun acc kv => acc.insert kv.1 (f kv.2))
        (∅ : AList (fun _ : String => W))) = (GoMap.get m k).map f := by
  have hnd : (GoMap.range m).NodupKeys := by
    cases m with
    | nil => simp [GoMap.range]
    | made a => exact a.nodupKeys
  rw [lookup_foldl_insert f k _ _ hnd]
  cases m with
  | nil => simp [GoMap.range, GoMap.get]
  | made a =>
    simp only [GoMap.range, GoMap.get, AList.lookup]
    cases List.dlookup k a.entries <;> simp

/-- The order in which a `range` loop visits the entries does not matter for
the map it rebuilds. -/
theorem lookup_rebuild_any_order (f : V → W) (m : GoMap V)
    (l : List (Sigma (fun _ : String => V))) (hl : l.Perm (GoMap.range m)) (k : String) :
    AList.lookup k (l.foldl (fun acc kv => acc.insert kv.1 (f kv.2))
        (∅ : AList (fun _ : String => W))) = (GoMap.get m k).map f := by
  have hnd : (GoMap.range m).NodupKeys := by
    cases m with
    | nil => simp [GoMap.range]
    | made a => exact a.nodupKeys
  have hndl : l.NodupKeys := (List.perm_nodupKeys hl).mpr hnd
  rw [lookup_foldl_insert f k l _ hndl, List.perm_dlookup k hndl hnd hl,
    ← lookup_foldl_insert f k _ _ hnd]
  exact lookup_rebuild f m k

/-- Two maps with the same lookup under every key are the same map. -/
theorem GoMap.same_of_get {m n : GoMap V} (h : ∀ k, GoMap.get m k = GoMap.get n k) :
    GoMap.same m n := by
  have nd : ∀ x : GoMap V, (GoMap.range x).NodupKeys := by
    intro x
    cases x with
    | nil => simp [GoMap.range]
    | made a => exact a.nodupKeys
  have gl : ∀ (x : GoMap V) (k : String), GoMap.get x k = (GoMap.range x).dlookup k := by
    intro x k
    cases x with
    | nil => simp [GoMap.range, GoMap.get]
    | made a => rfl
  refine List.lookup_ext (nd m) (nd n) ?_
  intro k v
  rw [← gl m k, ← gl n k, h k]

/-- The same map has the same lookup under every key. -/
theorem GoMap.get_of_same {m n : GoMap V} (h : GoMap.same m n) (k : String) :
    GoMap.get m k = GoMap.get n k := by
  have nd : ∀ x : GoMap V, (GoMap.range x).NodupKeys := by
    intro x
    cases x with
    | nil => simp [GoMap.range]
    | made a => exact a.nodupKeys
  have gl : ∀ (x : GoMap V) (k : String), GoMap.get x k = (GoMap.range x).dlookup k := by
    intro x k
    cases x with
    | nil => simp [GoMap.range, GoMap.get]
    | made a => rfl
  rw [gl m k, gl n k]
  exact List.perm_dlookup k (nd m) (nd n) h

end maps

/-- Wrapping a payload for the wire and reading it back gives a value that
carries the same payload. -/
theorem samePayload_ofProto_MarshalProto (v : Option typeurl.Any) :
    typeurl.samePayload (typeurl.ofProto (typeurl.MarshalProto v)) v := by
  rcases v with _ | (_ | a) | ⟨t, b⟩ <;> rfl

/-- Wrapping a non-nil payload for the wire and reading it back gives a value
with the same type identifier and body. -/
theorem sameAny_ofProto_MarshalProto (v : typeurl.Any) :
    typeurl.sameAny (typeurl.ofProto (typeurl.MarshalProto (some v))) (some v) := by
  rcases v with (_ | a) | ⟨t, b⟩ <;> exact ⟨rfl, rfl⟩

/-- Two maps are related when the first holds, under each key of the second, a
value related to the value of the second. -/
theorem GoMap.sameBy_of_get_map {V : Type} {R : V → V → Prop} {m n : GoMap V} (f : V → V)
    (hget : ∀ k, GoMap.get m k = (GoMap.get n k).map f)
    (hR : ∀ k v, GoMap.get n k = some v → R (f v) v) : GoMap.sameBy R m n := by
  intro k
  rw [hget k]
  cases hn : GoMap.get n k with
  | none => trivial
  | some v => exact hR k v hn

/-- Reading a wire payload and wrapping it again gives the wire payload. -/
theorem MarshalProto_ofProto (v : Option types.Any) :
    typeurl.MarshalProto (typeurl.ofProto v) = v := by
  cases v <;> rfl

/-- A timestamp survives the conversion to the wire format and back. -/
theorem FromTimestamp_ToTimestamp (t : time.Time) :
    protobuf.FromTimestamp (protobuf.ToTimestamp t) = t := by
  cases t with
  | mk n =>
    simp only [protobuf.ToTimestamp, protobuf.FromTimestamp]
    congr 1
    omega

/-- The extensions of a decoded container, looked up at a key. -/
theorem get_Extensions_FromProto (w : api.Container) (k : String) :
    GoMap.get (ContainerFromProto w).Extensions k =
      (GoMap.get w.Extensions k).map typeurl.ofProto := by
  simp only [ContainerFromProto, GoMap.get]
  exact lookup_rebuild typeurl.ofProto w.Extensions k

/-- The extensions of an encoded container, looked up at a key. -/
theorem get_Extensions_ToProto (c : Container) (k : String) :
    GoMap.get (ContainerToProto c).Extensions k =
      (GoMap.get c.Extensions k).map typeurl.MarshalProto := by
  simp only [ContainerToProto, GoMap.get]
  exact lookup_rebuild typeurl.MarshalProto c.Extensions k

/-- The extensions of a container that was encoded and decoded, looked up at
a key. -/
theorem get_Extensions_roundtrip (c : Container) (k : String) :
    GoMap.get (ContainerFromProto (ContainerToProto c)).Extensions k =
      (GoMap.get c.Extensions k).map (fun v => typeurl.ofProto (typeurl.MarshalProto v)) := by
  rw [get_Extensions_FromProto, get_Extensions_ToProto, Option.map_map]
  rfl

/-- C1, as amended: decoding the encoding of any container gives a container
that is field-for-field equal to it when payload fields are compared by the
payload they carry: scalar fields, runtime name and timestamps are equal, the
maps hold the same keys (a nil map counting as an empty one), and each payload
field carries the same (type identifier, body) or none on both sides.  A nil
`Runtime.Options` or `Spec` comes back as a non-nil value that holds a nil
pointer, so the decoded `Runtime.Options` and `Spec` are never nil.  When the
container has no nil `Runtime.Options`, `Spec` or extension value, the decoded
container is field-for-field equal to it with payloads compared by
(type identifier, body). -/
theorem ContainerFromProto_ContainerToProto (c : Container) :
    Container.fieldEqBy typeurl.samePayload (ContainerFromProto (ContainerToProto c)) c ∧
    ((c.Runtime.Options ≠ none ∧ c.Spec ≠ none ∧
        ∀ k, GoMap.get c.Extensions k ≠ some none) →
      Container.fieldEq (ContainerFromProto (ContainerToProto c)) c) ∧
    (ContainerFromProto (ContainerToProto c)).Runtime.Options ≠ none ∧
    (ContainerFromProto (ContainerToProto c)).Spec ≠ none ∧
    (c.Runtime.Options = none →
      (ContainerFromProto (ContainerToProto c)).Runtime.Options =
        some (typeurl.Any.pointer none)) ∧
    (c.Spec = none →
      (ContainerFromProto (ContainerToProto c)).Spec = some (typeurl.Any.pointer none)) := by
  have hopt : (ContainerFromProto (ContainerToProto c)).Runtime.Options =
      typeurl.ofProto (typeurl.MarshalProto c.Runtime.Options) := rfl
  have hspec : (ContainerFromProto (ContainerToProto c)).Spec =
      typeurl.ofProto (typeurl.MarshalProto c.Spec) := rfl
  refine ⟨?_, ?_, ?_, ?_, ?_, ?_⟩
  · refine ⟨rfl, List.Perm.refl _, rfl, rfl, ?_, ?_, rfl, rfl, ?_, ?_, ?_, rfl⟩
    · exact samePayload_ofProto_MarshalProto _
    · exact samePayload_ofProto_MarshalProto _
    · exact FromTimestamp_ToTimestamp _
    · exact FromTimestamp_ToTimestamp _
    · exact GoMap.sameBy_of_get_map _ (get_Extensions_roundtrip c)
        (fun _ v _ => samePayload_ofProto_MarshalProto v)
  · rintro ⟨ho, hs, he⟩
    refine ⟨rfl, List.Perm.refl _, rfl, rfl, ?_, ?_, rfl, rfl, ?_, ?_, ?_, rfl⟩
    · rw [hopt]
      cases h : c.Runtime.Options with
      | none => exact absurd h ho
      | some v => exact sameAny_ofProto_MarshalProto v
    · rw [hspec]
      cases h : c.Spec with
      | none => exact absurd h hs
      | some v => exact sameAny_ofProto_MarshalProto v
    · exact FromTimestamp_ToTimestamp _
    · exact FromTimestamp_ToTimestamp _
    · refine GoMap.sameBy_of_get_map _ (get_Extensions_roundtrip c) ?_
      intro k v hk
      cases v with
      | none => exact absurd hk (he k)
      | some a => exact sameAny_ofProto_MarshalProto a
  · rw [hopt]
    simp [typeurl.ofProto]
  · rw [hspec]
    simp [typeurl.ofProto]
  · intro h
    rw [hopt, h]
    rfl
  · intro h
    rw [hspec, h]
    rfl

/-- Witness of the amended C1: a container whose payload fields all carry a
payload comes back field-for-field equal, payloads compared by
(type identifier, body). -/
theorem ContainerFromProto_ContainerToProto_witness :
    Container.fieldEq (ContainerFromProto (ContainerToProto exampleContainer))
      exampleContainer :=
  (ContainerFromProto_ContainerToProto exampleContainer).2.1
    ⟨by decide, by decide, by
      intro k
      by_cases hk : k = "ext"
      · subst hk
        decide
      · have hk2 : ¬ "ext" = k := fun h => hk h.symm
        have : GoMap.get exampleContainer.Extensions k = none := by
          simp [exampleContainer, GoMap.get, AList.lookup, AList.singleton, List.dlookup, hk2]
        rw [this]
        exact fun h => Option.noConfusion h⟩

/-- Counterexample to C1 as stated: a container whose `Spec` and
`Runtime.Options` are nil.  After encoding and decoding both are non-nil values
that hold a nil pointer, so the decoded container is not field-for-field equal
to the original. -/
theorem decoded_nil_payload_is_not_nil :
    exampleBareContainer.Spec = none ∧
    (ContainerFromProto (ContainerToProto exampleBareContainer)).Spec =
      some (typeurl.Any.pointer none) ∧
    (ContainerFromProto (ContainerToProto exampleBareContainer)).Spec ≠
      exampleBareContainer.Spec ∧
    (ContainerFromProto (ContainerToProto exampleBareContainer)).Runtime.Options ≠
      exampleBareContainer.Runtime.Options ∧
    ¬ Container.fieldEq (ContainerFromProto (ContainerToProto exampleBareContainer))
      exampleBareContainer :=
  ⟨rfl, rfl, by decide, by decide, fun h => h.2.2.2.2.2.1⟩

/-! ## The receive loop -/

/-- While the token is not cancelled the loop takes the records one by one:
after the records `pre` it has made one `Recv` for each, appended their
decodings in order, and goes on with what is left. -/
theorem recvLoop_append (ctx : Context) (last : RpcError) (rest : Slice api.Container) :
    ∀ (pre : Slice api.Container) (n : Nat) (cs : Slice Container),
      (∀ i, i < pre.length → ctx.Err (n + i) = none) →
      remoteContainers.recvLoop ctx last (pre ++ rest) n cs =
        { containers := (remoteContainers.recvLoop ctx last rest (n + pre.length)
            (cs ++ pre.map ContainerFromProto)).containers,
          err := (remoteContainers.recvLoop ctx last rest (n + pre.length)
            (cs ++ pre.map ContainerFromProto)).err,
          calls := List.replicate pre.length Call.Recv ++
            (remoteContainers.recvLoop ctx last rest (n + pre.length)
              (cs ++ pre.map ContainerFromProto)).calls }
  | [], n, cs, _ => by simp
  | c :: pre, n, cs, h => by
    have h0 : ctx.Err n = none := by simpa using h 0 (by simp)
    have ht : ∀ i, i < pre.length → ctx.Err (n + 1 + i) = none := by
      intro i hi
      have := h (i + 1) (by simpa using hi)
      rwa [show n + (i + 1) = n + 1 + i by omega] at this
    have ih := recvLoop_append ctx last rest pre (n + 1) (cs ++ [ContainerFromProto c]) ht
    have e : n + (c :: pre).length = n + 1 + pre.length := by
      simp only [List.length_cons]
      omega
    rw [List.cons_append, remoteContainers.recvLoop]
    simp only [h0]
    rw [ih, e]
    simp [List.replicate_succ]

/-- The loop on a session whose records all pass the poll of the token: it
ends with the `Recv` that fails with `last`. -/
theorem recvLoop_all (ctx : Context) (last : RpcError) (ws : Slice api.Container)
    (h : ∀ i, i < ws.length → ctx.Err i = none) :
    remoteContainers.recvLoop ctx last ws 0 [] =
      { containers := (remoteContainers.recvLoop ctx last [] ws.length
          (ws.map ContainerFromProto)).containers,
        err := (remoteContainers.recvLoop ctx last [] ws.length
          (ws.map ContainerFromProto)).err,
        calls := List.replicate ws.length Call.Recv ++ [Call.Recv] } := by
  have := recvLoop_append ctx last [] ws 0 [] (by simpa using h)
  simp only [List.append_nil, Nat.zero_add, List.nil_append] at this
  rw [this]
  congr 1
  simp only [remoteContainers.recvLoop]
  split_ifs <;> rfl

/-- The slice decoder appends the decodings to what it has accumulated. -/
theorem foldl_append_FromProto (ws : Slice api.Container) :
    ∀ acc : Slice Container,
      ws.foldl (fun containers container => containers ++ [ContainerFromProto container]) acc =
        acc ++ ws.map ContainerFromProto := by
  induction ws with
  | nil => intro acc; simp
  | cons w ws ih => intro acc; simp [ih]

/-- The slice decoder decodes element by element. -/
theorem ContainersFromProto_eq_map (ws : Slice api.Container) :
    ContainersFromProto ws = ws.map ContainerFromProto := by
  simp [ContainersFromProto, foldl_append_FromProto]

/-- When the stream call opens, `stream` is the receive loop after the
`ListStream` call. -/
theorem stream_of_open (r : remoteContainers) (ctx : Context) (filters : Slice String)
    (s : ListStreamClient) (hopen : r.client.ListStream filters = Except.ok s) :
    r.stream ctx filters =
      { containers := (remoteContainers.recvLoop ctx s.last s.records 0 []).containers,
        err := (remoteContainers.recvLoop ctx s.last s.records 0 []).err,
        calls := Call.ListStream filters ::
          (remoteContainers.recvLoop ctx s.last s.records 0 []).calls } := by
  simp [remoteContainers.stream, hopen]

/-- What `stream` returns when the session delivers all its records (none is
stopped by the token) and then fails with an error that is not `io.EOF`. -/
theorem stream_of_failure (r : remoteContainers) (ctx : Context) (filters : Slice String)
    (s : ListStreamClient) (hopen : r.client.ListStream filters = Except.ok s)
    (hctx : ∀ i, i < s.records.length → ctx.Err i = none) (hlast : s.last ≠ RpcError.EOF) :
    r.stream ctx filters =
      { containers := [],
        err := if status.FromError s.last = (codes.Code.Unimplemented, true) then
          some errStreamNotAvailable else errdefs.FromGRPC (some s.last),
        calls := Call.ListStream filters :: List.replicate (s.records.length + 1) Call.Recv } := by
  rw [stream_of_open r ctx filters s hopen, recvLoop_all ctx s.last s.records hctx]
  have hrep : List.replicate s.records.length Call.Recv ++ [Call.Recv] =
      List.replicate (s.records.length + 1) Call.Recv := by
    rw [List.replicate_succ']
  simp only [remoteContainers.recvLoop, if_neg hlast, hrep]
  by_cases hu : status.FromError s.last = (codes.Code.Unimplemented, true)
  · have h1 : (status.FromError s.last).2 = true ∧
        (status.FromError s.last).1 = codes.Code.Unimplemented := by simp [hu]
    simp [hu, h1]
  · have h1 : ¬((status.FromError s.last).2 = true ∧
        (status.FromError s.last).1 = codes.Code.Unimplemented) := by
      intro h
      exact hu (Prod.ext h.2 h.1)
    simp [hu, h1]

/-- A mapped transport error is never the sentinel `errStreamNotAvailable`. -/
theorem FromGRPC_ne_sentinel (e : Option RpcError) :
    errdefs.FromGRPC e ≠ some errStreamNotAvailable := by
  cases e <;> simp [errdefs.FromGRPC, errStreamNotAvailable]

/-- C2: when the stream call opens and its first `Recv` fails with code
`Unimplemented`, `List` returns what the unary `list` call with the same
filters returns: the decodings of the records of the unary response, in the
same order, or no records and the mapped error of the unary call.  The calls
made are `ListStream`, one `Recv`, and the unary `List`. -/
theorem List_fallback_on_first_Recv (r : remoteContainers) (ctx : Context)
    (filters : Slice String) (s : ListStreamClient)
    (hopen : r.client.ListStream filters = Except.ok s) (hrec : s.records = [])
    (hlast : status.FromError s.last = (codes.Code.Unimplemented, true)) :
    (r.List ctx filters).containers = (r.list filters).containers ∧
    (r.List ctx filters).err = (r.list filters).err ∧
    (r.List ctx filters).containers =
      (match r.client.List filters with
       | Except.ok resp => resp.map ContainerFromProto
       | Except.error _ => []) ∧
    (r.List ctx filters).err =
      (match r.client.List filters with
       | Except.ok _ => none
       | Except.error e => errdefs.FromGRPC (some e)) ∧
    (r.List ctx filters).calls =
      [Call.ListStream filters, Call.Recv, Call.List filters] := by
  have hne : s.last ≠ RpcError.EOF := by
    intro h
    rw [h] at hlast
    simp [status.FromError] at hlast
  have hs := stream_of_failure r ctx filters s hopen (by simp [hrec]) hne
  rw [if_pos hlast, hrec] at hs
  have hL : r.List ctx filters =
      { containers := (r.list filters).containers, err := (r.list filters).err,
        calls := [Call.ListStream filters, Call.Recv] ++ (r.list filters).calls } := by
    simp [remoteContainers.List, hs]
  rw [hL]
  refine ⟨rfl, rfl, ?_, ?_, ?_⟩
  · simp only [remoteContainers.list]
    cases r.client.List filters <;> simp [ContainersFromProto_eq_map]
  · simp only [remoteContainers.list]
    cases r.client.List filters <;> simp
  · simp only [remoteContainers.list]
    cases r.client.List filters <;> simp

/-- Witness of C2: a server that answers `Unimplemented` to the first `Recv`
and three records to the unary call. -/
theorem List_fallback_on_first_Recv_witness :
    ((exampleStore (Except.ok { records := [], last := unimplemented })
        (Except.ok [exampleWire "a", exampleWire "b", exampleWire "c"])).List
        neverCancelled ["labels.x==y"]).containers =
      [ContainerFromProto (exampleWire "a"), ContainerFromProto (exampleWire "b"),
        ContainerFromProto (exampleWire "c")] ∧
    ((exampleStore (Except.ok { records := [], last := unimplemented })
        (Except.ok [exampleWire "a", exampleWire "b", exampleWire "c"])).List
        neverCancelled ["labels.x==y"]).err = none :=
  ⟨(List_fallback_on_first_Recv
      (exampleStore (Except.ok { records := [], last := unimplemented })
        (Except.ok [exampleWire "a", exampleWire "b", exampleWire "c"]))
      neverCancelled ["labels.x==y"] { records := [], last := unimplemented }
      rfl rfl rfl).2.2.1,
   (List_fallback_on_first_Recv
      (exampleStore (Except.ok { records := [], last := unimplemented })
        (Except.ok [exampleWire "a", exampleWire "b", exampleWire "c"]))
      neverCancelled ["labels.x==y"] { records := [], last := unimplemented }
      rfl rfl rfl).2.2.2.1⟩

/-- What `List` returns when the `ListStream` call itself fails. -/
theorem List_of_open_error (r : remoteContainers) (ctx : Context) (filters : Slice String)
    (e : RpcError) (hopen : r.client.ListStream filters = Except.error e) :
    r.List ctx filters =
      { containers := [], err := errdefs.FromGRPC (some e),
        calls := [Call.ListStream filters] } := by
  have hs : r.stream ctx filters =
      { containers := [], err := errdefs.FromGRPC (some e),
        calls := [Call.ListStream filters] } := by
    simp [remoteContainers.stream, hopen]
  simp [remoteContainers.List, hs, errdefs.FromGRPC, errStreamNotAvailable]

/-- C3, as amended: when the `ListStream` call itself fails, with any error,
the server's "not implemented" signal included, `List` does not fall back: it
returns no records and the mapped form of that error, and the `ListStream` call
is the only remote call it makes. -/
theorem List_open_failure (r : remoteContainers) (ctx : Context) (filters : Slice String)
    (e : RpcError) (hopen : r.client.ListStream filters = Except.error e) :
    (r.List ctx filters).containers = [] ∧
    (r.List ctx filters).err = errdefs.FromGRPC (some e) ∧
    (r.List ctx filters).calls = [Call.ListStream filters] := by
  rw [List_of_open_error r ctx filters e hopen]
  exact ⟨rfl, rfl, rfl⟩

/-- Witness of the amended C3: the stream call fails with `Unimplemented`. -/
theorem List_open_failure_witness :
    ((exampleStore (Except.error unimplemented) (Except.ok [exampleWire "a"])).List
        neverCancelled []).containers = [] ∧
    ((exampleStore (Except.error unimplemented) (Except.ok [exampleWire "a"])).List
        neverCancelled []).err = errdefs.FromGRPC (some unimplemented) ∧
    ((exampleStore (Except.error unimplemented) (Except.ok [exampleWire "a"])).List
        neverCancelled []).calls = [Call.ListStream []] :=
  List_open_failure (exampleStore (Except.error unimplemented) (Except.ok [exampleWire "a"]))
    neverCancelled [] unimplemented rfl

/-- Counterexample to C3 as stated: the `ListStream` call fails at once with
code `Unimplemented` while the unary call would return one record.  `List`
makes the `ListStream` call only and returns no record and an error; the unary
call returns the record and no error. -/
theorem List_open_unimplemented_no_fallback :
    (exampleStore (Except.error unimplemented) (Except.ok [exampleWire "a"])).client.ListStream []
      = Except.error (RpcError.status codes.Code.Unimplemented "unknown method") ∧
    ((exampleStore (Except.error unimplemented) (Except.ok [exampleWire "a"])).List
        neverCancelled []).calls = [Call.ListStream []] ∧
    ((exampleStore (Except.error unimplemented) (Except.ok [exampleWire "a"])).List
        neverCancelled []).containers = [] ∧
    ((exampleStore (Except.error unimplemented) (Except.ok [exampleWire "a"])).list
        []).containers = [ContainerFromProto (exampleWire "a")] ∧
    ((exampleStore (Except.error unimplemented) (Except.ok [exampleWire "a"])).List
        neverCancelled []).err =
      some (Error.mapped errdefs.Kind.NotImplemented unimplemented) ∧
    ((exampleStore (Except.error unimplemented) (Except.ok [exampleWire "a"])).list
        []).err = none ∧
    ((exampleStore (Except.error unimplemented) (Except.ok [exampleWire "a"])).List
        neverCancelled []).containers ≠
      ((exampleStore (Except.error unimplemented) (Except.ok [exampleWire "a"])).list
        []).containers :=
  ⟨rfl, rfl, rfl, rfl, rfl, rfl, fun h => absurd (congrArg List.length h) (by decide)⟩

/-- C4, as amended: `List` never returns the internal signal
`errStreamNotAvailable`; an error of kind `NotImplemented` can be returned:
when the stream reports `Unimplemented` on `Recv` (after records that all pass
the poll of the token) and the unary fallback call also fails with code
`Unimplemented`, `List` returns the mapped form of the unary error, which is of
kind `NotImplemented` and not of kind `Unavailable`. -/
theorem List_error_kinds (r : remoteContainers) (ctx : Context) (filters : Slice String) :
    (r.List ctx filters).err ≠ some errStreamNotAvailable ∧
    ∀ (s : ListStreamClient) (e : RpcError),
      r.client.ListStream filters = Except.ok s →
      (∀ i, i < s.records.length → ctx.Err i = none) →
      status.FromError s.last = (codes.Code.Unimplemented, true) →
      r.client.List filters = Except.error e →
      status.FromError e = (codes.Code.Unimplemented, true) →
      (r.List ctx filters).err = some (Error.mapped errdefs.Kind.NotImplemented e) ∧
      (r.List ctx filters).err.map errdefs.IsNotImplemented = some true ∧
      (r.List ctx filters).err.map errdefs.IsUnavailable = some false := by
  constructor
  · intro h
    cases hopen : r.client.ListStream filters with
    | error e =>
      rw [List_of_open_error r ctx filters e hopen] at h
      exact FromGRPC_ne_sentinel (some e) h
    | ok s =>
      simp only [remoteContainers.List] at h
      cases hs : (r.stream ctx filters).err with
      | none => simp [hs] at h
      | some err =>
        by_cases he : err = errStreamNotAvailable
        · simp only [hs, he, if_true, remoteContainers.list] at h
          cases hl : r.client.List filters with
          | error e2 =>
            simp only [hl] at h
            exact FromGRPC_ne_sentinel _ h
          | ok resp => simp [hl] at h
        · simp [hs, he] at h
  · intro s e hopen hctx hlast hunary hcode
    have hne : s.last ≠ RpcError.EOF := by
      intro h
      rw [h] at hlast
      simp [status.FromError] at hlast
    have hs := stream_of_failure r ctx filters s hopen hctx hne
    rw [if_pos hlast] at hs
    have hL : (r.List ctx filters).err = some (Error.mapped errdefs.Kind.NotImplemented e) := by
      simp [remoteContainers.List, hs, remoteContainers.list, hunary, errdefs.FromGRPC, hcode,
        errdefs.kindOf]
    rw [hL]
    simp [errdefs.IsNotImplemented, errdefs.IsUnavailable]

/-- Witness of the amended C4: both the first `Recv` and the unary call fail
with `Unimplemented`. -/
theorem List_error_kinds_witness :
    ((exampleStore (Except.ok { records := [], last := unimplemented })
        (Except.error unimplemented)).List neverCancelled []).err =
      some (Error.mapped errdefs.Kind.NotImplemented unimplemented) :=
  ((List_error_kinds
      (exampleStore (Except.ok { records := [], last := unimplemented })
        (Except.error unimplemented)) neverCancelled []).2
    { records := [], last := unimplemented } unimplemented rfl
    (fun _ h => absurd h (Nat.not_lt_zero _)) rfl rfl rfl).1

/-- Counterexample to C4 as stated: the first `Recv` and the unary fallback
call both fail with code `Unimplemented`; the error `List` returns is of kind
`NotImplemented` and is not of kind `Unavailable`. -/
theorem List_surfaces_NotImplemented :
    ((exampleStore (Except.ok { records := [], last := unimplemented })
        (Except.error unimplemented)).List neverCancelled []).err.map
        errdefs.IsNotImplemented = some true ∧
    ((exampleStore (Except.ok { records := [], last := unimplemented })
        (Except.error unimplemented)).List neverCancelled []).err.map
        errdefs.IsUnavailable = some false ∧
    ((exampleStore (Except.ok { records := [], last := unimplemented })
        (Except.error unimplemented)).List neverCancelled []).calls =
      [Call.ListStream [], Call.Recv, Call.List []] :=
  ⟨rfl, rfl, rfl⟩

/-- What `stream` returns when the poll of the token that follows the record
number `k + 1` is the first to find it cancelled: the decodings of the first
`k` records and the error of the token, after `k + 1` calls of `Recv`. -/
theorem stream_of_cancel (r : remoteContainers) (ctx : Context) (filters : Slice String)
    (s : ListStreamClient) (k : Nat) (e : ContextError)
    (hopen : r.client.ListStream filters = Except.ok s) (hk : k < s.records.length)
    (hbefore : ∀ i, i < k → ctx.Err i = none) (hat : ctx.Err k = some e) :
    r.stream ctx filters =
      { containers := (s.records.take k).map ContainerFromProto,
        err := some (Error.context e),
        calls := Call.ListStream filters :: List.replicate (k + 1) Call.Recv } := by
  have hlen : (s.records.take k).length = k := by
    rw [List.length_take]
    omega
  obtain ⟨c, rest, hdrop⟩ : ∃ c rest, s.records.drop k = c :: rest := by
    cases hd : s.records.drop k with
    | nil =>
      have := List.drop_eq_nil_iff.mp hd
      omega
    | cons c rest => exact ⟨c, rest, rfl⟩
  have hsplit : s.records = s.records.take k ++ c :: rest := by
    rw [← hdrop, List.take_append_drop]
  have hloop := recvLoop_append ctx s.last (c :: rest) (s.records.take k) 0 []
    (by
      intro i hi
      rw [hlen] at hi
      simpa using hbefore i hi)
  rw [← hsplit] at hloop
  rw [stream_of_open r ctx filters s hopen, hloop]
  simp only [hlen, Nat.zero_add, List.nil_append, remoteContainers.recvLoop, hat,
    List.replicate_succ']

/-- C5, as amended: when the stream would deliver `n` records and the poll
that follows record `k + 1` (`k < n`) is the first to find the token cancelled,
`stream` returns the decodings of the first `k` records, in stream order, with
the error of the token, and `List` returns that error with no records.  The
calls made are `ListStream` and `k + 1` calls of `Recv`: no unary `List` call
and no `Recv` after the one at which the cancellation was observed. -/
theorem List_cancelled (r : remoteContainers) (ctx : Context) (filters : Slice String)
    (s : ListStreamClient) (k : Nat) (e : ContextError)
    (hopen : r.client.ListStream filters = Except.ok s) (hk : k < s.records.length)
    (hbefore : ∀ i, i < k → ctx.Err i = none) (hat : ctx.Err k = some e) :
    (r.stream ctx filters).containers = (s.records.take k).map ContainerFromProto ∧
    (r.stream ctx filters).err = some (Error.context e) ∧
    (r.List ctx filters).containers = [] ∧
    (r.List ctx filters).err = some (Error.context e) ∧
    (r.List ctx filters).calls =
      Call.ListStream filters :: List.replicate (k + 1) Call.Recv := by
  have hs := stream_of_cancel r ctx filters s k e hopen hk hbefore hat
  simp [remoteContainers.List, hs, errStreamNotAvailable]

/-- Witness of the amended C5: three records, the token cancelled after the
first one has been accumulated. -/
theorem List_cancelled_witness :
    ((exampleStore
        (Except.ok { records := [exampleWire "a", exampleWire "b", exampleWire "c"],
                     last := RpcError.EOF })
        (Except.ok [])).stream (cancelledFrom 1) []).containers =
      [ContainerFromProto (exampleWire "a")] ∧
    ((exampleStore
        (Except.ok { records := [exampleWire "a", exampleWire "b", exampleWire "c"],
                     last := RpcError.EOF })
        (Except.ok [])).List (cancelledFrom 1) []).containers = [] ∧
    ((exampleStore
        (Except.ok { records := [exampleWire "a", exampleWire "b", exampleWire "c"],
                     last := RpcError.EOF })
        (Except.ok [])).List (cancelledFrom 1) []).err =
      some (Error.context ContextError.Canceled) :=
  have h := List_cancelled
    (exampleStore
      (Except.ok { records := [exampleWire "a", exampleWire "b", exampleWire "c"],
                   last := RpcError.EOF })
      (Except.ok []))
    (cancelledFrom 1) []
    { records := [exampleWire "a", exampleWire "b", exampleWire "c"], last := RpcError.EOF }
    1 ContextError.Canceled rfl (by decide) (by decide) rfl
  ⟨h.1, h.2.2.1, h.2.2.2.1⟩

/-- Counterexample to C5 as stated: the stream would deliver three records and
the token is cancelled after the first one has been accumulated (`k = 1`).
`stream` returns that one record with the cancellation error, but `List`
returns no record at all. -/
theorem List_drops_records_on_cancel :
    ((exampleStore
        (Except.ok { records := [exampleWire "a", exampleWire "b", exampleWire "c"],
                     last := RpcError.EOF })
        (Except.ok [])).stream (cancelledFrom 1) []).containers =
      [ContainerFromProto (exampleWire "a")] ∧
    ((exampleStore
        (Except.ok { records := [exampleWire "a", exampleWire "b", exampleWire "c"],
                     last := RpcError.EOF })
        (Except.ok [])).List (cancelledFrom 1) []).containers.length = 0 ∧
    ((exampleStore
        (Except.ok { records := [exampleWire "a", exampleWire "b", exampleWire "c"],
                     last := RpcError.EOF })
        (Except.ok [])).List (cancelledFrom 1) []).err =
      some (Error.context ContextError.Canceled) ∧
    ((exampleStore
        (Except.ok { records := [exampleWire "a", exampleWire "b", exampleWire "c"],
                     last := RpcError.EOF })
        (Except.ok [])).List (cancelledFrom 1) []).containers ≠
      [ContainerFromProto (exampleWire "a")] :=
  ⟨rfl, rfl, rfl, fun h => absurd (congrArg List.length h) (by decide)⟩

/-- C6: when the stream delivers `k` records (each passes the poll of the
token) and the next `Recv` fails with an error that is neither `io.EOF` nor of
code `Unimplemented`, `List` returns no records, the `k` decoded ones being
discarded, and the mapped form of that error; the calls made are `ListStream`
and `k + 1` calls of `Recv`, so the unary `List` call is not issued. -/
theorem List_stream_failure (r : remoteContainers) (ctx : Context) (filters : Slice String)
    (s : ListStreamClient) (hopen : r.client.ListStream filters = Except.ok s)
    (hctx : ∀ i, i < s.records.length → ctx.Err i = none)
    (heof : s.last ≠ RpcError.EOF)
    (hcode : (status.FromError s.last).1 ≠ codes.Code.Unimplemented) :
    (r.List ctx filters).containers = [] ∧
    (r.List ctx filters).err = errdefs.FromGRPC (some s.last) ∧
    (r.List ctx filters).calls =
      Call.ListStream filters :: List.replicate (s.records.length + 1) Call.Recv := by
  have hs := stream_of_failure r ctx filters s hopen hctx heof
  have hu : ¬ status.FromError s.last = (codes.Code.Unimplemented, true) := by
    intro h
    exact hcode (by rw [h])
  rw [if_neg hu] at hs
  simp [remoteContainers.List, hs, errdefs.FromGRPC, errStreamNotAvailable]

/-- Witness of C6: two records, then a `Recv` that fails with code `Internal`. -/
theorem List_stream_failure_witness :
    ((exampleStore
        (Except.ok { records := [exampleWire "a", exampleWire "b"],
                     last := RpcError.status codes.Code.Internal "boom" })
        (Except.ok [exampleWire "a"])).List neverCancelled []).containers = [] ∧
    ((exampleStore
        (Except.ok { records := [exampleWire "a", exampleWire "b"],
                     last := RpcError.status codes.Code.Internal "boom" })
        (Except.ok [exampleWire "a"])).List neverCancelled []).err =
      errdefs.FromGRPC (some (RpcError.status codes.Code.Internal "boom")) ∧
    ((exampleStore
        (Except.ok { records := [exampleWire "a", exampleWire "b"],
                     last := RpcError.status codes.Code.Internal "boom" })
        (Except.ok [exampleWire "a"])).List neverCancelled []).calls =
      [Call.ListStream [], Call.Recv, Call.Recv, Call.Recv] :=
  List_stream_failure
    (exampleStore
      (Except.ok { records := [exampleWire "a", exampleWire "b"],
                   last := RpcError.status codes.Code.Internal "boom" })
      (Except.ok [exampleWire "a"]))
    neverCancelled []
    { records := [exampleWire "a", exampleWire "b"],
      last := RpcError.status codes.Code.Internal "boom" }
    rfl (fun _ _ => rfl) (by decide) (by decide)

/-- C7: when the stream delivers the records `w_1 .. w_n` and then the
end-of-stream marker, and no poll of the token finds it cancelled, `List`
returns the decodings of `w_1 .. w_n` in server order and no error; the calls
made are `ListStream` and `n + 1` calls of `Recv`, so the unary `List` call is
not issued. -/
theorem List_stream_complete (r : remoteContainers) (ctx : Context) (filters : Slice String)
    (s : ListStreamClient) (hopen : r.client.ListStream filters = Except.ok s)
    (hctx : ∀ i, i < s.records.length → ctx.Err i = none)
    (heof : s.last = RpcError.EOF) :
    (r.List ctx filters).containers = s.records.map ContainerFromProto ∧
    (r.List ctx filters).err = none ∧
    (r.List ctx filters).calls =
      Call.ListStream filters :: List.replicate (s.records.length + 1) Call.Recv := by
  have hs : r.stream ctx filters =
      { containers := s.records.map ContainerFromProto, err := none,
        calls := Call.ListStream filters :: List.replicate (s.records.length + 1) Call.Recv } := by
    rw [stream_of_open r ctx filters s hopen, recvLoop_all ctx s.last s.records hctx]
    simp [remoteContainers.recvLoop, heof, List.replicate_succ']
  simp [remoteContainers.List, hs]

/-- Witness of C7: three records and the end-of-stream marker. -/
theorem List_stream_complete_witness :
    ((exampleStore
        (Except.ok { records := [exampleWire "a", exampleWire "b", exampleWire "c"],
                     last := RpcError.EOF })
        (Except.error unimplemented)).List neverCancelled []).containers =
      [ContainerFromProto (exampleWire "a"), ContainerFromProto (exampleWire "b"),
        ContainerFromProto (exampleWire "c")] ∧
    ((exampleStore
        (Except.ok { records := [exampleWire "a", exampleWire "b", exampleWire "c"],
                     last := RpcError.EOF })
        (Except.error unimplemented)).List neverCancelled []).err = none ∧
    ((exampleStore
        (Except.ok { records := [exampleWire "a", exampleWire "b", exampleWire "c"],
                     last := RpcError.EOF })
        (Except.error unimplemented)).List neverCancelled []).calls =
      [Call.ListStream [], Call.Recv, Call.Recv, Call.Recv, Call.Recv] :=
  List_stream_complete
    (exampleStore
      (Except.ok { records := [exampleWire "a", exampleWire "b", exampleWire "c"],
                   last := RpcError.EOF })
      (Except.error unimplemented))
    neverCancelled []
    { records := [exampleWire "a", exampleWire "b", exampleWire "c"], last := RpcError.EOF }
    rfl (fun _ _ => rfl) rfl

/-! ## The codec on runtimes and payloads -/

/-- C8: for a wire container whose `Runtime` sub-message is absent,
`ContainerFromProto` (a total function: it cannot fail) returns a container
whose `Runtime` is the zero value, with an empty `Name` and absent `Options`;
every other field is decoded as for the same wire container with any `Runtime`
sub-message present. -/
theorem ContainerFromProto_absent_Runtime (w : api.Container) (h : w.Runtime = none) :
    (ContainerFromProto w).Runtime = RuntimeInfo.zero ∧
    (ContainerFromProto w).Runtime.Name = "" ∧
    (ContainerFromProto w).Runtime.Options = none ∧
    (∀ rt : api.Container_Runtime,
      ContainerFromProto w =
        { ContainerFromProto { w with Runtime := some rt } with Runtime := RuntimeInfo.zero }) ∧
    (ContainerFromProto w).ID = w.ID ∧
    (ContainerFromProto w).Labels = w.Labels ∧
    (ContainerFromProto w).Image = w.Image ∧
    (ContainerFromProto w).Spec = typeurl.ofProto w.Spec ∧
    (ContainerFromProto w).Snapshotter = w.Snapshotter ∧
    (ContainerFromProto w).SnapshotKey = w.SnapshotKey ∧
    (ContainerFromProto w).SandboxID = w.Sandbox ∧
    (ContainerFromProto w).CreatedAt = protobuf.FromTimestamp w.CreatedAt ∧
    (ContainerFromProto w).UpdatedAt = protobuf.FromTimestamp w.UpdatedAt := by
  have hr : (ContainerFromProto w).Runtime = RuntimeInfo.zero := by
    simp [ContainerFromProto, h]
  refine ⟨hr, ?_, ?_, ?_, rfl, rfl, rfl, rfl, rfl, rfl, rfl, rfl, rfl⟩
  · rw [hr]; rfl
  · rw [hr]; rfl
  · intro rt
    simp [ContainerFromProto, h]

/-- Witness of C8: a wire container that has no `Runtime` sub-message. -/
theorem ContainerFromProto_absent_Runtime_witness :
    (ContainerFromProto { exampleWire "a" with Runtime := none }).Runtime = RuntimeInfo.zero ∧
    (ContainerFromProto { exampleWire "a" with Runtime := none }).ID = "a" :=
  have h := ContainerFromProto_absent_Runtime { exampleWire "a" with Runtime := none } rfl
  ⟨h.1, h.2.2.2.2.1⟩

/-- C9, as amended: for a wire container whose `Runtime` sub-message is absent
the decoded `Runtime` is the zero value.  When the sub-message is present with
an empty `Name`, the decoded `Runtime` has an empty `Name` and its `Options` is
a non-nil value that holds the `Options` pointer of the wire container: the nil
pointer when there is no payload, otherwise the payload with the same type
identifier and body.  In that case the `Runtime` is not the zero value. -/
theorem ContainerFromProto_empty_Runtime_Name (w : api.Container) (opts : Option types.Any)
    (h : w.Runtime = none ∨ w.Runtime = some { Name := "", Options := opts }) :
    (ContainerFromProto w).Runtime.Name = "" ∧
    (w.Runtime = none → (ContainerFromProto w).Runtime = RuntimeInfo.zero) ∧
    (w.Runtime = some { Name := "", Options := opts } →
      (ContainerFromProto w).Runtime =
        { Name := "", Options := some (typeurl.Any.pointer opts) } ∧
      (ContainerFromProto w).Runtime.Options ≠ none ∧
      typeurl.MarshalProto (ContainerFromProto w).Runtime.Options = opts ∧
      (ContainerFromProto w).Runtime ≠ RuntimeInfo.zero) := by
  refine ⟨?_, ?_, ?_⟩
  · rcases h with h | h <;> simp [ContainerFromProto, h, RuntimeInfo.zero]
  · intro h2
    simp [ContainerFromProto, h2]
  · intro h2
    have hr : (ContainerFromProto w).Runtime =
        { Name := "", Options := some (typeurl.Any.pointer opts) } := by
      simp [ContainerFromProto, h2, typeurl.ofProto]
    rw [hr]
    refine ⟨rfl, ?_, rfl, ?_⟩
    · simp
    · simp [RuntimeInfo.zero]

/-- Witness of the amended C9: a `Runtime` sub-message that is present, with an
empty `Name` and no `Options`; the decoded `Options` holds a nil pointer and is
not nil. -/
theorem ContainerFromProto_empty_Runtime_Name_witness :
    (ContainerFromProto
      { exampleWire "a" with Runtime := some { Name := "", Options := none } }).Runtime =
      { Name := "", Options := some (typeurl.Any.pointer none) } ∧
    (ContainerFromProto
      { exampleWire "a" with Runtime := some { Name := "", Options := none } }).Runtime ≠
      RuntimeInfo.zero :=
  have h := (ContainerFromProto_empty_Runtime_Name
    { exampleWire "a" with Runtime := some { Name := "", Options := none } } none
    (Or.inr rfl)).2.2 rfl
  ⟨h.1, h.2.2.2⟩

/-- Counterexample to C9 as stated: the `Runtime` sub-message is present with
an empty `Name` and an `Options` payload; the decoded `Runtime` carries that
payload and is not the zero value. -/
theorem ContainerFromProto_keeps_Options_of_unnamed_Runtime :
    (ContainerFromProto
      { exampleWire "a" with
        Runtime := some { Name := "", Options := some { TypeUrl := "t", Value := [1] } } }).Runtime
      = { Name := "",
          Options := some (typeurl.Any.pointer (some { TypeUrl := "t", Value := [1] })) } ∧
    (ContainerFromProto
      { exampleWire "a" with
        Runtime := some { Name := "", Options := some { TypeUrl := "t", Value := [1] } } }).Runtime
      ≠ RuntimeInfo.zero :=
  ⟨rfl, by decide⟩

/-- C10: `ContainerToProto` is a total function (it cannot fail).  For a
container whose `Runtime.Options` is nil or carries a payload, the
`Runtime.Options` payload of the result is absent exactly when the container's
`Runtime.Options` is nil, and otherwise is present with the type identifier and
the body of the domain value; the same holds for `Spec`.  The one other domain
value, the non-nil value that holds a nil pointer and carries no payload, gives
an absent payload too.  Every payload that is present carries the type
identifier and the body of the domain value. -/
theorem ContainerToProto_payloads (c : Container) :
    (c.Runtime.Options ≠ some (typeurl.Any.pointer none) →
      ((((ContainerToProto c).Runtime.bind fun rt => rt.Options) = none ↔
          c.Runtime.Options = none) ∧
        ((ContainerToProto c).Runtime.bind fun rt => rt.Options) =
          c.Runtime.Options.map
            (fun v => { TypeUrl := v.GetTypeUrl, Value := v.GetValue }))) ∧
    (c.Spec ≠ some (typeurl.Any.pointer none) →
      (((ContainerToProto c).Spec = none ↔ c.Spec = none) ∧
        (ContainerToProto c).Spec =
          c.Spec.map (fun v => { TypeUrl := v.GetTypeUrl, Value := v.GetValue }))) ∧
    (c.Runtime.Options = some (typeurl.Any.pointer none) →
      ((ContainerToProto c).Runtime.bind fun rt => rt.Options) = none) ∧
    (c.Spec = some (typeurl.Any.pointer none) → (ContainerToProto c).Spec = none) ∧
    (∀ a, ((ContainerToProto c).Runtime.bind fun rt => rt.Options) = some a →
      ∃ v, c.Runtime.Options = some v ∧ a.TypeUrl = v.GetTypeUrl ∧ a.Value = v.GetValue) ∧
    (∀ a, (ContainerToProto c).Spec = some a →
      ∃ v, c.Spec = some v ∧ a.TypeUrl = v.GetTypeUrl ∧ a.Value = v.GetValue) ∧
    (ContainerToProto c).Runtime.isSome = true := by
  have hmodel : ∀ x : Option typeurl.Any, x ≠ some (typeurl.Any.pointer none) →
      ((typeurl.MarshalProto x = none ↔ x = none) ∧
        typeurl.MarshalProto x =
          x.map (fun v => { TypeUrl := v.GetTypeUrl, Value := v.GetValue })) := by
    intro x hx
    rcases x with _ | (_ | a) | ⟨t, b⟩
    · exact ⟨⟨fun _ => rfl, fun _ => rfl⟩, rfl⟩
    · exact absurd rfl hx
    · exact ⟨by simp [typeurl.MarshalProto], rfl⟩
    · exact ⟨by simp [typeurl.MarshalProto], rfl⟩
  have hptr : ∀ x : Option typeurl.Any, x = some (typeurl.Any.pointer none) →
      typeurl.MarshalProto x = none := by
    intro x hx
    rw [hx]
    rfl
  have hsome : ∀ (x : Option typeurl.Any) (a : types.Any), typeurl.MarshalProto x = some a →
      ∃ v, x = some v ∧ a.TypeUrl = v.GetTypeUrl ∧ a.Value = v.GetValue := by
    intro x a h
    rcases x with _ | (_ | a2) | ⟨t, b⟩
    · simp [typeurl.MarshalProto] at h
    · simp [typeurl.MarshalProto] at h
    · simp only [typeurl.MarshalProto, Option.some.injEq] at h
      subst h
      exact ⟨_, rfl, rfl, rfl⟩
    · simp only [typeurl.MarshalProto, Option.some.injEq] at h
      subst h
      exact ⟨_, rfl, rfl, rfl⟩
  have ho : ((ContainerToProto c).Runtime.bind fun rt => rt.Options) =
      typeurl.MarshalProto c.Runtime.Options := rfl
  have hs : (ContainerToProto c).Spec = typeurl.MarshalProto c.Spec := rfl
  rw [ho, hs]
  exact ⟨hmodel _, hmodel _, hptr _, hptr _, hsome _, hsome _, rfl⟩

/-- Witness of C10: a container whose `Spec` carries a payload; the encoded
`Spec` is present with the same type identifier and body. -/
theorem ContainerToProto_payloads_witness :
    (ContainerToProto exampleContainer).Spec = some { TypeUrl := "spec", Value := [2, 3] } :=
  ((ContainerToProto_payloads exampleContainer).2.1 (by decide)).2

/-! ## Decoding and encoding again -/

/-- C11: decoding a wire container and encoding the result leaves every
payload as it was: the extensions have the same keys and, under each key, the
same value (type identifier and body); the `Spec` is the same; and the
`Runtime.Options` payload is the same (absent when the wire container has no
`Runtime`). -/
theorem ContainerToProto_ContainerFromProto_payloads (w : api.Container) :
    (∀ k, GoMap.get (ContainerToProto (ContainerFromProto w)).Extensions k =
      GoMap.get w.Extensions k) ∧
    (∀ k, k ∈ GoMap.keys (ContainerToProto (ContainerFromProto w)).Extensions ↔
      k ∈ GoMap.keys w.Extensions) ∧
    GoMap.same (ContainerToProto (ContainerFromProto w)).Extensions w.Extensions ∧
    (ContainerToProto (ContainerFromProto w)).Spec = w.Spec ∧
    ((ContainerToProto (ContainerFromProto w)).Runtime.bind fun rt => rt.Options) =
      (w.Runtime.bind fun rt => rt.Options) := by
  have hget : ∀ k, GoMap.get (ContainerToProto (ContainerFromProto w)).Extensions k =
      GoMap.get w.Extensions k := by
    intro k
    rw [get_Extensions_ToProto, get_Extensions_FromProto, Option.map_map]
    cases GoMap.get w.Extensions k with
    | none => rfl
    | some v => simp [MarshalProto_ofProto]
  have hsame : GoMap.same (ContainerToProto (ContainerFromProto w)).Extensions w.Extensions :=
    GoMap.same_of_get hget
  refine ⟨hget, ?_, hsame, ?_, ?_⟩
  · intro k
    exact (List.Perm.map Sigma.fst hsame).mem_iff
  · exact MarshalProto_ofProto w.Spec
  · cases hr : w.Runtime with
    | none => simp [ContainerToProto, ContainerFromProto, hr, RuntimeInfo.zero, typeurl.MarshalProto]
    | some rt => simp [ContainerToProto, ContainerFromProto, hr, MarshalProto_ofProto]

/-- The slice encoder appends the encodings to what it has accumulated. -/
theorem foldl_append_ToProto (cs : Slice Container) :
    ∀ acc : Slice api.Container,
      cs.foldl (fun containerspb image => containerspb ++ [ContainerToProto image]) acc =
        acc ++ cs.map ContainerToProto := by
  induction cs with
  | nil => intro acc; simp
  | cons c cs ih => intro acc; simp [ih]

/-- The slice encoder encodes element by element. -/
theorem ContainersToProto_eq_map (cs : Slice Container) :
    ContainersToProto cs = cs.map ContainerToProto := by
  simp [ContainersToProto, foldl_append_ToProto]

/-- C12: `ContainersFromProto` returns a slice of the same length whose element
number `i` is `ContainerFromProto` of element number `i` of the input, and
`ContainersToProto` does the same with `ContainerToProto`; both keep the order
and give an empty slice for an empty one. -/
theorem Containers_codec_elementwise (xs : Slice api.Container) (cs : Slice Container) :
    (ContainersFromProto xs).length = xs.length ∧
    (∀ i : Nat, (ContainersFromProto xs)[i]? = xs[i]?.map ContainerFromProto) ∧
    ContainersFromProto xs = xs.map ContainerFromProto ∧
    (ContainersToProto cs).length = cs.length ∧
    (∀ i : Nat, (ContainersToProto cs)[i]? = cs[i]?.map ContainerToProto) ∧
    ContainersToProto cs = cs.map ContainerToProto ∧
    ContainersFromProto [] = [] ∧ ContainersToProto [] = [] := by
  refine ⟨?_, ?_, ContainersFromProto_eq_map xs, ?_, ?_, ContainersToProto_eq_map cs, rfl, rfl⟩
  · rw [ContainersFromProto_eq_map, List.length_map]
  · intro i
    rw [ContainersFromProto_eq_map, List.getElem?_map]
  · rw [ContainersToProto_eq_map, List.length_map]
  · intro i
    rw [ContainersToProto_eq_map, List.getElem?_map]

/-- C16: the `CreatedAt` and `UpdatedAt` of a container that was encoded and
decoded are the instants of the original.  On the wire each is a number of
whole seconds and a number of nanoseconds from 0 to 999999999 that together
denote the instant, so nothing is lost. -/
theorem timestamps_survive_codec (c : Container) :
    (ContainerFromProto (ContainerToProto c)).CreatedAt = c.CreatedAt ∧
    (ContainerFromProto (ContainerToProto c)).UpdatedAt = c.UpdatedAt ∧
    (∃ ts : timestamppb.Timestamp, (ContainerToProto c).CreatedAt = some ts ∧
      0 ≤ ts.Nanos ∧ ts.Nanos < 1000000000 ∧
      ts.Seconds * 1000000000 + ts.Nanos = c.CreatedAt.unixNano) ∧
    (∃ ts : timestamppb.Timestamp, (ContainerToProto c).UpdatedAt = some ts ∧
      0 ≤ ts.Nanos ∧ ts.Nanos < 1000000000 ∧
      ts.Seconds * 1000000000 + ts.Nanos = c.UpdatedAt.unixNano) := by
  have hw : ∀ t : time.Time, ∃ ts : timestamppb.Timestamp, protobuf.ToTimestamp t = some ts ∧
      0 ≤ ts.Nanos ∧ ts.Nanos < 1000000000 ∧
      ts.Seconds * 1000000000 + ts.Nanos = t.unixNano := by
    intro t
    refine ⟨_, rfl, ?_, ?_, ?_⟩
    · show 0 ≤ t.unixNano % 1000000000
      omega
    · show t.unixNano % 1000000000 < 1000000000
      omega
    · show t.unixNano / 1000000000 * 1000000000 + t.unixNano % 1000000000 = t.unixNano
      omega
  exact ⟨FromTimestamp_ToTimestamp c.CreatedAt, FromTimestamp_ToTimestamp c.UpdatedAt,
    hw c.CreatedAt, hw c.UpdatedAt⟩

/-! ## The single-call operations -/

/-- C13: the one request `Update` sends carries `ContainerToProto` of the
container and an update mask that is absent exactly when the field paths are
empty; when they are not empty the paths of the mask are the field paths, the
same elements in the same order. -/
theorem Update_request (r : remoteContainers) (c : Container) (fp : Slice String) :
    (r.Update c fp).calls =
      [Call.Update (ContainerToProto c) (if fp = [] then none else some { Paths := fp })] ∧
    ((if fp = [] then none else some ({ Paths := fp } : types.FieldMask)) = none ↔ fp = []) ∧
    ((if fp = [] then none else some ({ Paths := fp } : types.FieldMask)).map
      (fun m => m.Paths) = if fp = [] then none else some fp) := by
  have hmask : (if fp.length > 0 then some ({ Paths := fp } : types.FieldMask) else none) =
      (if fp = [] then none else some { Paths := fp }) := by
    cases fp <;> simp
  refine ⟨?_, ?_, ?_⟩
  · simp only [remoteContainers.Update, hmask]
    cases r.client.Update (ContainerToProto c) (if fp = [] then none else some { Paths := fp })
      <;> rfl
  · cases fp <;> simp
  · cases fp <;> simp

/-- C14: `Get`, `Create`, `Update` and `Delete` each make exactly one remote
call.  When the call fails with an error `e` the operation returns the mapped
form of `e` (of kind `NotFound` for a not-found status, `AlreadyExists` for an
already-exists status) and, for `Get`, `Create` and `Update`, the zero-value
container; when it succeeds the operation returns no error and, for `Get`,
`Create` and `Update`, `ContainerFromProto` of the record in the response. -/
theorem single_call_operations (r : remoteContainers) (id : String) (c : Container)
    (fp : Slice String) :
    ((r.Get id).calls = [Call.Get id] ∧
      (r.Get id).err =
        (match r.client.Get id with
         | Except.error e => errdefs.FromGRPC (some e)
         | Except.ok _ => none) ∧
      (r.Get id).container =
        (match r.client.Get id with
         | Except.error _ => Container.zero
         | Except.ok resp => ContainerFromProto resp)) ∧
    ((r.Create c).calls = [Call.Create (ContainerToProto c)] ∧
      (r.Create c).err =
        (match r.client.Create (ContainerToProto c) with
         | Except.error e => errdefs.FromGRPC (some e)
         | Except.ok _ => none) ∧
      (r.Create c).container =
        (match r.client.Create (ContainerToProto c) with
         | Except.error _ => Container.zero
         | Except.ok created => ContainerFromProto created)) ∧
    ((r.Update c fp).calls =
        [Call.Update (ContainerToProto c)
          (if fp.length > 0 then some { Paths := fp } else none)] ∧
      (r.Update c fp).err =
        (match r.client.Update (ContainerToProto c)
            (if fp.length > 0 then some { Paths := fp } else none) with
         | Except.error e => errdefs.FromGRPC (some e)
         | Except.ok _ => none) ∧
      (r.Update c fp).container =
        (match r.client.Update (ContainerToProto c)
            (if fp.length > 0 then some { Paths := fp } else none) with
         | Except.error _ => Container.zero
         | Except.ok updated => ContainerFromProto updated)) ∧
    ((r.Delete id).2 = [Call.Delete id] ∧
      (r.Delete id).1 =
        (match r.client.Delete id with
         | some e => errdefs.FromGRPC (some e)
         | none => none)) ∧
    (∀ e : RpcError, errdefs.FromGRPC (some e) =
      some (Error.mapped (errdefs.kindOf (status.FromError e).1) e)) ∧
    (∀ msg : String, errdefs.FromGRPC (some (RpcError.status codes.Code.NotFound msg)) =
      some (Error.mapped errdefs.Kind.NotFound (RpcError.status codes.Code.NotFound msg))) ∧
    (∀ msg : String, errdefs.FromGRPC (some (RpcError.status codes.Code.AlreadyExists msg)) =
      some (Error.mapped errdefs.Kind.AlreadyExists
        (RpcError.status codes.Code.AlreadyExists msg))) := by
  refine ⟨⟨?_, ?_, ?_⟩, ⟨?_, ?_, ?_⟩, ⟨?_, ?_, ?_⟩, ⟨rfl, ?_⟩, fun _ => rfl, fun _ => rfl,
    fun _ => rfl⟩
  · simp only [remoteContainers.Get]
    cases r.client.Get id <;> rfl
  · simp only [remoteContainers.Get]
    cases r.client.Get id <;> rfl
  · simp only [remoteContainers.Get]
    cases r.client.Get id <;> rfl
  · simp only [remoteContainers.Create]
    cases r.client.Create (ContainerToProto c) <;> rfl
  · simp only [remoteContainers.Create]
    cases r.client.Create (ContainerToProto c) <;> rfl
  · simp only [remoteContainers.Create]
    cases r.client.Create (ContainerToProto c) <;> rfl
  · simp only [remoteContainers.Update]
    cases r.client.Update (ContainerToProto c)
      (if fp.length > 0 then some { Paths := fp } else none) <;> rfl
  · simp only [remoteContainers.Update]
    cases r.client.Update (ContainerToProto c)
      (if fp.length > 0 then some { Paths := fp } else none) <;> rfl
  · simp only [remoteContainers.Update]
    cases r.client.Update (ContainerToProto c)
      (if fp.length > 0 then some { Paths := fp } else none) <;> rfl
  · simp only [remoteContainers.Delete]
    cases r.client.Delete id <;> rfl

/-! ## The calls of `List` -/

/-- The receive loop makes calls of `Recv` only. -/
theorem recvLoop_calls (ctx : Context) (last : RpcError) :
    ∀ (ws : Slice api.Container) (n : Nat) (cs : Slice Container),
      ∃ m, (remoteContainers.recvLoop ctx last ws n cs).calls = List.replicate m Call.Recv
  | [], n, cs => by
    refine ⟨1, ?_⟩
    simp only [remoteContainers.recvLoop]
    split_ifs <;> rfl
  | w :: ws, n, cs => by
    cases h : ctx.Err n with
    | some e =>
      refine ⟨1, ?_⟩
      simp [remoteContainers.recvLoop, h]
    | none =>
      obtain ⟨m, hm⟩ := recvLoop_calls ctx last ws (n + 1) (cs ++ [ContainerFromProto w])
      refine ⟨m + 1, ?_⟩
      simp [remoteContainers.recvLoop, h, hm, List.replicate_succ]

/-- The loop returns the error of the token only when a poll that follows a
received record found the token cancelled. -/
theorem recvLoop_context_err (ctx : Context) (last : RpcError) (e : ContextError) :
    ∀ (ws : Slice api.Container) (n : Nat) (cs : Slice Container),
      (remoteContainers.recvLoop ctx last ws n cs).err = some (Error.context e) →
      ∃ i, i < ws.length ∧ ctx.Err (n + i) = some e
  | [], n, cs => by
    intro h
    simp only [remoteContainers.recvLoop] at h
    split_ifs at h <;> simp [errdefs.FromGRPC, errStreamNotAvailable] at h
  | w :: ws, n, cs => by
    intro h
    cases hp : ctx.Err n with
    | some e2 =>
      simp only [remoteContainers.recvLoop, hp, Option.some.injEq, Error.context.injEq] at h
      exact ⟨0, by simp, by simpa [h] using hp⟩
    | none =>
      simp only [remoteContainers.recvLoop, hp] at h
      obtain ⟨i, hi, hc⟩ := recvLoop_context_err ctx last e ws (n + 1)
        (cs ++ [ContainerFromProto w]) h
      refine ⟨i + 1, by simpa using hi, ?_⟩
      rwa [show n + (i + 1) = n + 1 + i by omega]

/-- The unary call is one call of `List` with the filters. -/
theorem list_calls (r : remoteContainers) (filters : Slice String) :
    (r.list filters).calls = [Call.List filters] := by
  simp only [remoteContainers.list]
  cases r.client.List filters <;> rfl

/-- The error of the unary call is nil or a mapped transport error. -/
theorem list_err (r : remoteContainers) (filters : Slice String) :
    (r.list filters).err = none ∨ ∃ e, (r.list filters).err = errdefs.FromGRPC (some e) := by
  simp only [remoteContainers.list]
  cases r.client.List filters with
  | error e => exact Or.inr ⟨e, rfl⟩
  | ok resp => exact Or.inl rfl

/-- The calls of `stream`: the `ListStream` call, then calls of `Recv` only. -/
theorem stream_calls (r : remoteContainers) (ctx : Context) (filters : Slice String) :
    ∃ m, (r.stream ctx filters).calls = Call.ListStream filters :: List.replicate m Call.Recv := by
  cases hopen : r.client.ListStream filters with
  | error e =>
    refine ⟨0, ?_⟩
    simp [remoteContainers.stream, hopen]
  | ok s =>
    obtain ⟨m, hm⟩ := recvLoop_calls ctx s.last s.records 0 []
    refine ⟨m, ?_⟩
    rw [stream_of_open r ctx filters s hopen, hm]

/-- The calls of `List`: those of `stream`, followed by the unary call when
`stream` returned `errStreamNotAvailable`. -/
theorem List_calls_of_stream (r : remoteContainers) (ctx : Context) (filters : Slice String) :
    (r.List ctx filters).calls = (r.stream ctx filters).calls ∨
    (r.List ctx filters).calls = (r.stream ctx filters).calls ++ [Call.List filters] := by
  simp only [remoteContainers.List]
  cases hs : (r.stream ctx filters).err with
  | none => exact Or.inl rfl
  | some err =>
    by_cases he : err = errStreamNotAvailable
    · right
      simp [he, list_calls]
    · left
      simp [he]

/-- C15: `List` makes exactly one `ListStream` call and at most one unary `List`
call: its calls are the `ListStream` call, then calls of `Recv`, then possibly
the unary `List` call, after which there is no further call.  Each of the two
requests carries exactly the filters `List` was given. -/
theorem List_calls (r : remoteContainers) (ctx : Context) (filters : Slice String) :
    (∃ m, (r.List ctx filters).calls = Call.ListStream filters :: List.replicate m Call.Recv ∨
      (r.List ctx filters).calls =
        Call.ListStream filters :: List.replicate m Call.Recv ++ [Call.List filters]) ∧
    (r.List ctx filters).calls.countP Call.isListStream = 1 ∧
    (r.List ctx filters).calls.countP Call.isList ≤ 1 ∧
    (∀ c ∈ (r.List ctx filters).calls, ∀ f, Call.filters c = some f → f = filters) := by
  obtain ⟨m, hm⟩ := stream_calls r ctx filters
  have hshape : (r.List ctx filters).calls =
        Call.ListStream filters :: List.replicate m Call.Recv ∨
      (r.List ctx filters).calls =
        Call.ListStream filters :: List.replicate m Call.Recv ++ [Call.List filters] := by
    rcases List_calls_of_stream r ctx filters with h | h
    · exact Or.inl (by rw [h, hm])
    · exact Or.inr (by rw [h, hm])
  have hrecv1 : (List.replicate m Call.Recv).countP Call.isListStream = 0 := by
    rw [List.countP_eq_zero]
    intro c hc
    rw [List.eq_of_mem_replicate hc]
    simp [Call.isListStream]
  have hrecv2 : (List.replicate m Call.Recv).countP Call.isList = 0 := by
    rw [List.countP_eq_zero]
    intro c hc
    rw [List.eq_of_mem_replicate hc]
    simp [Call.isList]
  refine ⟨⟨m, hshape⟩, ?_, ?_, ?_⟩
  · rcases hshape with h | h <;> rw [h] <;>
      simp [List.countP_cons, List.countP_append, hrecv1, Call.isListStream]
  · rcases hshape with h | h <;> rw [h] <;>
      simp [List.countP_cons, List.countP_append, hrecv2, Call.isList]
  · intro c hc f hf
    have hmem : c = Call.ListStream filters ∨ c = Call.Recv ∨ c = Call.List filters := by
      rcases hshape with h | h
      · rw [h] at hc
        rcases List.mem_cons.mp hc with h1 | h1
        · exact Or.inl h1
        · exact Or.inr (Or.inl (List.eq_of_mem_replicate h1))
      · rw [h] at hc
        rcases List.mem_append.mp hc with h1 | h1
        · rcases List.mem_cons.mp h1 with h2 | h2
          · exact Or.inl h2
          · exact Or.inr (Or.inl (List.eq_of_mem_replicate h2))
        · exact Or.inr (Or.inr (List.mem_singleton.mp h1))
    rcases hmem with h | h | h <;> rw [h] at hf <;> simp [Call.filters] at hf
    · exact hf.symm
    · exact hf.symm

/-! ## The fallback after records, and the moment of cancellation -/

/-- What `List` returns when the session delivers all its records (none is
stopped by the token) and then fails with code `Unimplemented`: the result of
the unary call, after the calls of `stream`. -/
theorem List_of_late_unimplemented (r : remoteContainers) (ctx : Context)
    (filters : Slice String) (s : ListStreamClient)
    (hopen : r.client.ListStream filters = Except.ok s)
    (hctx : ∀ i, i < s.records.length → ctx.Err i = none)
    (hlast : status.FromError s.last = (codes.Code.Unimplemented, true)) :
    r.List ctx filters =
      { containers := (r.list filters).containers, err := (r.list filters).err,
        calls := Call.ListStream filters :: List.replicate (s.records.length + 1) Call.Recv ++
          [Call.List filters] } := by
  have hne : s.last ≠ RpcError.EOF := by
    intro h
    rw [h] at hlast
    simp [status.FromError] at hlast
  have hs := stream_of_failure r ctx filters s hopen hctx hne
  rw [if_pos hlast] at hs
  simp [remoteContainers.List, hs, list_calls]

/-- The containers of the unary call, by what the remote call answers. -/
theorem list_containers (r : remoteContainers) (filters : Slice String) :
    (r.list filters).containers =
      (match r.client.List filters with
       | Except.ok resp => resp.map ContainerFromProto
       | Except.error _ => []) := by
  simp only [remoteContainers.list]
  cases r.client.List filters <;> simp [ContainersFromProto_eq_map]

/-- C17: when the stream delivers `k` records (each passes the poll of the
token) and the next `Recv` fails with code `Unimplemented`, the result of
`List` is the result of the unary call: the decodings of the records of the
unary response and nothing else, so the `k` streamed records are discarded,
neither put in front of nor merged with the unary ones. -/
theorem List_fallback_discards_streamed (r : remoteContainers) (ctx : Context)
    (filters : Slice String) (s : ListStreamClient)
    (hopen : r.client.ListStream filters = Except.ok s)
    (hctx : ∀ i, i < s.records.length → ctx.Err i = none)
    (hlast : status.FromError s.last = (codes.Code.Unimplemented, true)) :
    (r.List ctx filters).containers = (r.list filters).containers ∧
    (r.List ctx filters).err = (r.list filters).err ∧
    (r.List ctx filters).containers =
      (match r.client.List filters with
       | Except.ok resp => resp.map ContainerFromProto
       | Except.error _ => []) ∧
    (r.List ctx filters).calls =
      Call.ListStream filters :: List.replicate (s.records.length + 1) Call.Recv ++
        [Call.List filters] := by
  rw [List_of_late_unimplemented r ctx filters s hopen hctx hlast]
  exact ⟨rfl, rfl, list_containers r filters, rfl⟩

/-- Witness of C17: two records are streamed, then `Recv` fails with
`Unimplemented`; the unary call returns the three records of the server, and
`List` returns these three, each once. -/
theorem List_fallback_discards_streamed_witness :
    ((exampleStore
        (Except.ok { records := [exampleWire "a", exampleWire "b"], last := unimplemented })
        (Except.ok [exampleWire "a", exampleWire "b", exampleWire "c"])).List
        neverCancelled []).containers =
      [ContainerFromProto (exampleWire "a"), ContainerFromProto (exampleWire "b"),
        ContainerFromProto (exampleWire "c")] ∧
    ((exampleStore
        (Except.ok { records := [exampleWire "a", exampleWire "b"], last := unimplemented })
        (Except.ok [exampleWire "a", exampleWire "b", exampleWire "c"])).List
        neverCancelled []).calls =
      [Call.ListStream [], Call.Recv, Call.Recv, Call.Recv, Call.List []] :=
  have h := List_fallback_discards_streamed
    (exampleStore
      (Except.ok { records := [exampleWire "a", exampleWire "b"], last := unimplemented })
      (Except.ok [exampleWire "a", exampleWire "b", exampleWire "c"]))
    neverCancelled []
    { records := [exampleWire "a", exampleWire "b"], last := unimplemented }
    rfl (fun _ _ => rfl) rfl
  ⟨h.2.2.1, h.2.2.2⟩

/-- C18: the cancellation is observed only by the poll that follows a `Recv`
that yields a record.  `List` returns the error of the token only if such a
poll found it cancelled.  When every received record passed its poll and the
token is cancelled by the time the last `Recv` returns, that `Recv` decides
alone: on `io.EOF` `List` returns all the decoded records and no error; on
code `Unimplemented` it returns the result of the unary call; on any other
error it returns no records and the mapped form of that error. -/
theorem List_cancel_only_after_record (r : remoteContainers) (ctx : Context)
    (filters : Slice String) :
    (∀ e, (r.List ctx filters).err = some (Error.context e) →
      ∃ s i, r.client.ListStream filters = Except.ok s ∧ i < s.records.length ∧
        ctx.Err i = some e) ∧
    (∀ (s : ListStreamClient) (e : ContextError),
      r.client.ListStream filters = Except.ok s →
      (∀ i, i < s.records.length → ctx.Err i = none) →
      ctx.Err s.records.length = some e →
      (s.last = RpcError.EOF →
        (r.List ctx filters).containers = s.records.map ContainerFromProto ∧
        (r.List ctx filters).err = none) ∧
      (status.FromError s.last = (codes.Code.Unimplemented, true) →
        (r.List ctx filters).containers = (r.list filters).containers ∧
        (r.List ctx filters).err = (r.list filters).err) ∧
      (s.last ≠ RpcError.EOF → (status.FromError s.last).1 ≠ codes.Code.Unimplemented →
        (r.List ctx filters).containers = [] ∧
        (r.List ctx filters).err = errdefs.FromGRPC (some s.last)) ∧
      (r.List ctx filters).err ≠ some (Error.context e)) := by
  have hgen : ∀ e, (r.List ctx filters).err = some (Error.context e) →
      ∃ s i, r.client.ListStream filters = Except.ok s ∧ i < s.records.length ∧
        ctx.Err i = some e := by
    intro e h
    cases hopen : r.client.ListStream filters with
    | error e2 =>
      rw [List_of_open_error r ctx filters e2 hopen] at h
      simp [errdefs.FromGRPC] at h
    | ok s =>
      refine ⟨s, ?_⟩
      have hstream : (r.stream ctx filters).err = some (Error.context e) := by
        simp only [remoteContainers.List] at h
        cases hs : (r.stream ctx filters).err with
        | none => simp [hs] at h
        | some err =>
          by_cases he : err = errStreamNotAvailable
          · simp only [hs, he, if_true] at h
            rcases list_err r filters with hl | ⟨e3, hl⟩
            · rw [hl] at h
              simp at h
            · rw [hl] at h
              simp [errdefs.FromGRPC] at h
          · simp only [hs, he, if_false] at h
            exact h
      rw [stream_of_open r ctx filters s hopen] at hstream
      obtain ⟨i, hi, hc⟩ := recvLoop_context_err ctx s.last e s.records 0 [] hstream
      exact ⟨i, rfl, hi, by simpa using hc⟩
  refine ⟨hgen, ?_⟩
  intro s e hopen hctx _ 
  have hnot : (r.List ctx filters).err ≠ some (Error.context e) := by
    intro h
    obtain ⟨s2, i, hopen2, hi, hc⟩ := hgen e h
    rw [hopen] at hopen2
    have hs : s = s2 := by injection hopen2
    subst hs
    rw [hctx i hi] at hc
    exact Option.noConfusion hc
  refine ⟨?_, ?_, ?_, hnot⟩
  · intro heof
    have hs : r.stream ctx filters =
        { containers := s.records.map ContainerFromProto, err := none,
          calls := Call.ListStream filters ::
            List.replicate (s.records.length + 1) Call.Recv } := by
      rw [stream_of_open r ctx filters s hopen, recvLoop_all ctx s.last s.records hctx]
      simp [remoteContainers.recvLoop, heof, List.replicate_succ']
    simp [remoteContainers.List, hs]
  · intro hlast
    rw [List_of_late_unimplemented r ctx filters s hopen hctx hlast]
    exact ⟨rfl, rfl⟩
  · intro heof hcode
    have hs := stream_of_failure r ctx filters s hopen hctx heof
    have hu : ¬ status.FromError s.last = (codes.Code.Unimplemented, true) := by
      intro h
      exact hcode (by rw [h])
    rw [if_neg hu] at hs
    simp [remoteContainers.List, hs, errdefs.FromGRPC, errStreamNotAvailable]

/-- Witness of C18: two records are received, and the token is cancelled
before the `Recv` that returns the end-of-stream marker. -/
theorem List_cancel_only_after_record_witness :
    ((exampleStore
        (Except.ok { records := [exampleWire "a", exampleWire "b"], last := RpcError.EOF })
        (Except.ok [])).List (cancelledFrom 2) []).containers =
      [ContainerFromProto (exampleWire "a"), ContainerFromProto (exampleWire "b")] ∧
    ((exampleStore
        (Except.ok { records := [exampleWire "a", exampleWire "b"], last := RpcError.EOF })
        (Except.ok [])).List (cancelledFrom 2) []).err = none :=
  ((List_cancel_only_after_record
      (exampleStore
        (Except.ok { records := [exampleWire "a", exampleWire "b"], last := RpcError.EOF })
        (Except.ok []))
      (cancelledFrom 2) []).2
    { records := [exampleWire "a", exampleWire "b"], last := RpcError.EOF }
    ContextError.Canceled rfl (by decide) rfl).1 rfl
